import Mathlib

/-!
# Verification of the order-matching engine and channel-state protocol

Shallow embedding of `src/lib/protocol/channel.ts` (the `StateChannelManager`
and the `PredictionMarketMatcher`) from the orderbooktrade-yellow-app
repository, together with proofs of the behavioural claims about it.

Modelling conventions:
* JavaScript numbers used for prices, quantities and balances are modelled
  as `ℚ` (the code relies on exact comparison such as `remainingQuantity === 0`,
  which is the intended arithmetic); timestamps, nonces and sequence numbers
  are modelled as `ℤ` or `ℕ`.
* String-enum fields (`'YES'`, `'BUY'`, `'LIMIT'`, `'OPEN'`, ...) are kept as
  `String`, so that the `if x === 'YES' ... else ...` branches of the source,
  which send every non-`'YES'` value to the else branch, are preserved exactly.
* `Map` objects and plain JS objects used as dictionaries are modelled as
  association lists with JS object semantics: an update replaces the first
  (unique, in JS) occurrence of the key, otherwise appends.
* `Date.now()` and `generateId()` are impure; they are passed in as explicit
  parameters (`now : ℤ`, `ids : ℕ → String`).
* In-place mutation of shared `Order` objects (the matching loop mutates maker
  orders that are also referenced from the book arrays) is reflected by
  explicitly writing the updated order back into the book side the maker was
  taken from, and by returning the list of maker orders that were mutated to
  status `FILLED` (field `completed`).
-/

namespace Matcher

/-- A participant balance: `{usdc, yes, no}` from the matcher state. -/
structure UserBalance where
  usdc : ℚ
  yes : ℚ
  no : ℚ
deriving DecidableEq

/-- First-match lookup in an association list; models reading a key of a JS
object used as a dictionary (keys are unique in a JS object). -/
def findEntry {α : Type} : List (String × α) → String → Option α
  | [], _ => none
  | (k, v) :: rest, u => if k == u then some v else findEntry rest u

/-- Key update in an association list with JS object semantics: replace the
first occurrence in place, or append when the key is absent. -/
def setEntry {α : Type} : List (String × α) → String → α → List (String × α)
  | [], u, v => [(u, v)]
  | (k, w) :: rest, u, v =>
    if k == u then (k, v) :: rest else (k, w) :: setEntry rest u v

/-- An order resting in or entering the book (`Order` in the source). -/
structure Order where
  id : String
  userId : String
  outcome : String
  side : String
  type : String
  price : ℚ
  quantity : ℚ
  remainingQuantity : ℚ
  timestamp : ℤ
  status : String
deriving DecidableEq

/-- A trade record (`Fill` in the matcher's types). -/
structure Fill where
  id : String
  makerOrderId : String
  takerOrderId : String
  price : ℚ
  quantity : ℚ
  timestamp : ℤ
  outcome : String
deriving DecidableEq

/-- The four resting-order lists (`Orderbook`). -/
structure Orderbook where
  yesBids : List Order
  yesAsks : List Order
  noBids : List Order
  noAsks : List Order
deriving DecidableEq

/-- The whole matcher state (`PredictionMarketState`). -/
structure PredictionMarketState where
  marketId : String
  question : String
  orderbook : Orderbook
  balances : List (String × UserBalance)
  fills : List Fill
  sequence : ℕ
  timestamp : ℤ
  lastYesPrice : Option ℚ
  lastNoPrice : Option ℚ
deriving DecidableEq

/-- An incoming order request (`OrderRequest`). -/
structure OrderRequest where
  userId : String
  outcome : String
  side : String
  type : String
  price : Option ℚ
  quantity : ℚ
deriving DecidableEq

/-- The reasons `validateRequest` can reject; the source returns one message
string per rejection site, modelled here as one constructor per site. -/
inductive ValidationError where
  | userNotFound
  | quantityNotPositive
  | priceRequired
  | priceOutOfRange
  | insufficientUSDC
  | insufficientTokens
deriving DecidableEq

/-- Result of `processOrder` (`OrderResult`). -/
structure OrderResult where
  success : Bool
  error : Option ValidationError
  order : Option Order
  fills : List Fill
  newState : PredictionMarketState
deriving DecidableEq

/-- JS `request.price || 1`: `undefined` and the falsy price `0` both give 1. -/
def orDefaultOne : Option ℚ → ℚ
  | some p => if p = 0 then 1 else p
  | none => 1

/-- `userBalance.yes` or `userBalance.no` selected by the outcome string
(the source lowercases the outcome and indexes the balance record). -/
def tokensOf (b : UserBalance) (outcome : String) : ℚ :=
  if outcome == "YES" then b.yes else b.no

/-- `PredictionMarketMatcher.validateRequest`, check for check. -/
def validateRequest (state : PredictionMarketState) (request : OrderRequest) :
    Option ValidationError :=
  match findEntry state.balances request.userId with
  | none => some ValidationError.userNotFound
  | some userBalance =>
    if request.quantity ≤ 0 then some ValidationError.quantityNotPositive
    else
      match (if request.type == "LIMIT" then
               match request.price with
               | none => some ValidationError.priceRequired
               | some p =>
                 if p ≤ 0 ∨ 1 ≤ p then some ValidationError.priceOutOfRange else none
             else none) with
      | some e => some e
      | none =>
        if request.side == "BUY" then
          if userBalance.usdc < orDefaultOne request.price * request.quantity then
            some ValidationError.insufficientUSDC
          else none
        else
          if tokensOf userBalance request.outcome < request.quantity then
            some ValidationError.insufficientTokens
          else none

/-- `Math.min` on two rationals, written out so that it evaluates by kernel
reduction; equal to `min` (see `mathMin_eq_min`). -/
def mathMin (a b : ℚ) : ℚ := if a ≤ b then a else b

/-- `PredictionMarketMatcher.canMatch`: a buy taker needs
`takerOrder.price >= makerOrder.price`, a sell taker the converse. -/
def canMatch (takerOrder makerOrder : Order) : Bool :=
  if takerOrder.side == "BUY" then decide (makerOrder.price ≤ takerOrder.price)
  else decide (takerOrder.price ≤ makerOrder.price)

/-- `balance[outcome] += q` where `outcome` is the lowercased outcome tag. -/
def addTok (b : UserBalance) (outcome : String) (q : ℚ) : UserBalance :=
  if outcome == "YES" then { b with yes := b.yes + q } else { b with no := b.no + q }

/-- `PredictionMarketMatcher.updateBalancesForFill`.  The source spreads
`newBalances[userId]` into fresh objects, mutates both, then writes the taker
balance and afterwards the maker balance back; when taker and maker are the
same user the maker write overwrites the taker write, which this definition
reproduces by performing the two `setEntry` writes in the same order.
(When a user id has no balance record the source would produce `NaN` balances;
here the lookup defaults to zeroes and the theorems restrict to states whose
resting orders all have balance records.) -/
def updateBalancesForFill (balances : List (String × UserBalance))
    (takerOrder makerOrder : Order) (fill : Fill) : List (String × UserBalance) :=
  let takerBalance := (findEntry balances takerOrder.userId).getD ⟨0, 0, 0⟩
  let makerBalance := (findEntry balances makerOrder.userId).getD ⟨0, 0, 0⟩
  let usdcAmount := fill.price * fill.quantity
  let pair :=
    if takerOrder.side == "BUY" then
      (addTok { takerBalance with usdc := takerBalance.usdc - usdcAmount }
         fill.outcome fill.quantity,
       addTok { makerBalance with usdc := makerBalance.usdc + usdcAmount }
         fill.outcome (-fill.quantity))
    else
      (addTok { takerBalance with usdc := takerBalance.usdc + usdcAmount }
         fill.outcome (-fill.quantity),
       addTok { makerBalance with usdc := makerBalance.usdc - usdcAmount }
         fill.outcome fill.quantity)
  setEntry (setEntry balances takerOrder.userId pair.1) makerOrder.userId pair.2

/-- The book side an incoming `(side, outcome)` order matches against
(the list selected in `getMatchableOrders`). -/
def takerSideList (orderbook : Orderbook) (side outcome : String) : List Order :=
  if side == "BUY" then
    (if outcome == "YES" then orderbook.yesAsks else orderbook.noAsks)
  else
    (if outcome == "YES" then orderbook.yesBids else orderbook.noBids)

/-- Replace the book side selected by `takerSideList`; used to reflect the
source's in-place mutation of maker orders shared with that side. -/
def setTakerSideList (orderbook : Orderbook) (side outcome : String)
    (l : List Order) : Orderbook :=
  if side == "BUY" then
    (if outcome == "YES" then { orderbook with yesAsks := l }
     else { orderbook with noAsks := l })
  else
    (if outcome == "YES" then { orderbook with yesBids := l }
     else { orderbook with noBids := l })

/-- The ask comparator `a.price - b.price || a.timestamp - b.timestamp`
(lowest price first, earliest timestamp on ties) as a Boolean relation. -/
def askRelb (a b : Order) : Bool :=
  decide (a.price < b.price) ||
    (decide (a.price = b.price) && decide (a.timestamp ≤ b.timestamp))

/-- The bid comparator `b.price - a.price || a.timestamp - b.timestamp`
(highest price first, earliest timestamp on ties) as a Boolean relation. -/
def bidRelb (a b : Order) : Bool :=
  decide (b.price < a.price) ||
    (decide (a.price = b.price) && decide (a.timestamp ≤ b.timestamp))

/-- The sort order used for the side an incoming order matches against:
ascending asks for a buy taker, descending bids otherwise. -/
def matchRel (side : String) (a b : Order) : Prop :=
  (if side == "BUY" then askRelb a b else bidRelb a b) = true

instance matchRelDecidable (side : String) : DecidableRel (matchRel side) :=
  fun a b => instDecidableEqBool (if side == "BUY" then askRelb a b else bidRelb a b) true

/-- `PredictionMarketMatcher.getMatchableOrders`: a copy of the opposing side,
sorted by price-time priority.  The source uses the JS engine's (stable) sort
with the comparators above; any sort satisfying the comparator order is a
faithful model, insertion sort is used here. -/
def getMatchableOrders (orderbook : Orderbook) (order : Order) : List Order :=
  List.insertionSort (matchRel order.side) (takerSideList orderbook order.side order.outcome)

/-- `PredictionMarketMatcher.removeFromOrderbook`: filter the order's id out
of the side selected by the order's own outcome/side fields. -/
def removeFromOrderbook (orderbook : Orderbook) (order : Order) : Orderbook :=
  if order.outcome == "YES" then
    if order.side == "BUY" then
      { orderbook with yesBids := orderbook.yesBids.filter (fun o => o.id != order.id) }
    else
      { orderbook with yesAsks := orderbook.yesAsks.filter (fun o => o.id != order.id) }
  else
    if order.side == "BUY" then
      { orderbook with noBids := orderbook.noBids.filter (fun o => o.id != order.id) }
    else
      { orderbook with noAsks := orderbook.noAsks.filter (fun o => o.id != order.id) }

/-- The ascending-ask order as a `Prop` relation for book insertion. -/
def askRel (a b : Order) : Prop := askRelb a b = true

/-- The descending-bid order as a `Prop` relation for book insertion. -/
def bidRel (a b : Order) : Prop := bidRelb a b = true

instance askRelDecidable : DecidableRel askRel :=
  fun a b => instDecidableEqBool (askRelb a b) true

instance bidRelDecidable : DecidableRel bidRel :=
  fun a b => instDecidableEqBool (bidRelb a b) true

/-- `PredictionMarketMatcher.addToOrderbook`: push the order onto its side and
re-sort that side with the side's comparator. -/
def addToOrderbook (orderbook : Orderbook) (order : Order) : Orderbook :=
  if order.outcome == "YES" then
    if order.side == "BUY" then
      { orderbook with yesBids := List.insertionSort bidRel (orderbook.yesBids ++ [order]) }
    else
      { orderbook with yesAsks := List.insertionSort askRel (orderbook.yesAsks ++ [order]) }
  else
    if order.side == "BUY" then
      { orderbook with noBids := List.insertionSort bidRel (orderbook.noBids ++ [order]) }
    else
      { orderbook with noAsks := List.insertionSort askRel (orderbook.noAsks ++ [order]) }

/-- Mutable state threaded through the matching loop of `matchOrder`, plus the
list `completed` of maker orders that were mutated to status `FILLED`. -/
structure MatchAcc where
  fills : List Fill
  remainingQty : ℚ
  orderbook : Orderbook
  balances : List (String × UserBalance)
  completed : List Order
deriving DecidableEq

/-- The maker order after a fill of `min(remaining, maker.remaining)`: the
source subtracts the fill quantity in place and sets status `FILLED` when the
remainder reaches zero exactly. -/
def makerAfterFill (makerOrder : Order) (remainingQty : ℚ) : Order :=
  if makerOrder.remainingQuantity - mathMin remainingQty makerOrder.remainingQuantity = 0 then
    { makerOrder with remainingQuantity := 0, status := "FILLED" }
  else
    { makerOrder with
      remainingQuantity := makerOrder.remainingQuantity - mathMin remainingQty makerOrder.remainingQuantity }

/-- The fill record one loop iteration creates: quantity
`min(remaining, maker.remaining)` at the maker's price. -/
def matchFill (ids : ℕ → String) (now : ℤ) (order makerOrder : Order)
    (remainingQty : ℚ) (k : ℕ) : Fill :=
  { id := ids k, makerOrderId := makerOrder.id, takerOrderId := order.id,
    price := makerOrder.price, quantity := mathMin remainingQty makerOrder.remainingQuantity,
    timestamp := now, outcome := order.outcome }

/-- The book after one loop iteration: the maker's in-place mutation is made
visible in the side it was taken from, and a fully filled maker is removed via
`removeFromOrderbook`. -/
def matchStepBook (order makerOrder : Order) (remainingQty : ℚ)
    (orderbook : Orderbook) : Orderbook :=
  let makerUpdated := makerAfterFill makerOrder remainingQty
  let sideList := (takerSideList orderbook order.side order.outcome).map
    (fun o => if o.id == makerOrder.id then makerUpdated else o)
  let orderbook1 := setTakerSideList orderbook order.side order.outcome sideList
  if makerOrder.remainingQuantity - mathMin remainingQty makerOrder.remainingQuantity = 0 then
    removeFromOrderbook orderbook1 makerUpdated
  else orderbook1

/-- The `for (const makerOrder of matchableOrders)` loop of
`PredictionMarketMatcher.matchOrder`: stop when the taker is exhausted or the
best remaining maker's price no longer matches; otherwise fill
`min(remaining, maker.remaining)` at the maker's price, update balances, write
the mutated maker back into the book side, and drop it when fully filled. -/
def matchLoop (ids : ℕ → String) (now : ℤ) (order : Order) :
    List Order → ℚ → Orderbook → List (String × UserBalance) → ℕ → MatchAcc
  | [], remainingQty, orderbook, balances, _ =>
    { fills := [], remainingQty := remainingQty, orderbook := orderbook,
      balances := balances, completed := [] }
  | makerOrder :: rest, remainingQty, orderbook, balances, k =>
    if remainingQty ≤ 0 then
      { fills := [], remainingQty := remainingQty, orderbook := orderbook,
        balances := balances, completed := [] }
    else if !(canMatch order makerOrder) then
      { fills := [], remainingQty := remainingQty, orderbook := orderbook,
        balances := balances, completed := [] }
    else
      let fill := matchFill ids now order makerOrder remainingQty k
      let acc := matchLoop ids now order rest
        (remainingQty - mathMin remainingQty makerOrder.remainingQuantity)
        (matchStepBook order makerOrder remainingQty orderbook)
        (updateBalancesForFill balances order makerOrder fill) (k + 1)
      { fills := fill :: acc.fills, remainingQty := acc.remainingQty,
        orderbook := acc.orderbook, balances := acc.balances,
        completed :=
          (if makerOrder.remainingQuantity - mathMin remainingQty makerOrder.remainingQuantity = 0
           then [makerAfterFill makerOrder remainingQty] else []) ++ acc.completed }

/-- What `PredictionMarketMatcher.matchOrder` returns. -/
structure MatchOut where
  fills : List Fill
  updatedOrder : Order
  updatedOrderbook : Orderbook
  updatedBalances : List (String × UserBalance)
  completed : List Order
deriving DecidableEq

/-- `PredictionMarketMatcher.matchOrder`. -/
def matchOrder (ids : ℕ → String) (now : ℤ) (state : PredictionMarketState)
    (order : Order) : MatchOut :=
  let matchable := getMatchableOrders state.orderbook order
  let acc := matchLoop ids now order matchable order.quantity state.orderbook state.balances 1
  { fills := acc.fills,
    updatedOrder := { order with remainingQuantity := acc.remainingQty },
    updatedOrderbook := acc.orderbook, updatedBalances := acc.balances,
    completed := acc.completed }

/-- The order object `processOrder` constructs from a request: market buys
price at the maximum 1, market sells at 0, limit orders at the given price
(`request.price!`, defaulted, is only read when validation has ensured it). -/
def requestOrder (ids : ℕ → String) (now : ℤ) (request : OrderRequest) : Order :=
  { id := ids 0, userId := request.userId, outcome := request.outcome,
    side := request.side, type := request.type,
    price :=
      if request.type == "MARKET" then (if request.side == "BUY" then 1 else 0)
      else request.price.getD 0,
    quantity := request.quantity, remainingQuantity := request.quantity,
    timestamp := now, status := "OPEN" }

/-- `PredictionMarketMatcher.processOrder`.  The source mutates
`updatedOrder.status` after pushing the very same object into the book, so the
resting copy carries the final status; here the status is computed before the
book insertion, which yields the identical resulting state. -/
def processOrder (ids : ℕ → String) (now : ℤ) (currentState : PredictionMarketState)
    (request : OrderRequest) : OrderResult :=
  match validateRequest currentState request with
  | some e =>
    { success := false, error := some e, order := none, fills := [],
      newState := currentState }
  | none =>
    let order := requestOrder ids now request
    let m := matchOrder ids now currentState order
    let updatedOrder :=
      if m.updatedOrder.remainingQuantity = 0 then
        { m.updatedOrder with status := "FILLED" }
      else if m.updatedOrder.remainingQuantity < m.updatedOrder.quantity then
        { m.updatedOrder with status := "PARTIAL" }
      else m.updatedOrder
    let newOrderbook :=
      if 0 < updatedOrder.remainingQuantity ∧ updatedOrder.type == "LIMIT" then
        addToOrderbook m.updatedOrderbook updatedOrder
      else m.updatedOrderbook
    let lastPrices := m.fills.foldl
      (fun (_ : Option ℚ × Option ℚ) fill =>
        if fill.outcome == "YES" then (some fill.price, some (1 - fill.price))
        else (some (1 - fill.price), some fill.price))
      (currentState.lastYesPrice, currentState.lastNoPrice)
    { success := true, error := none, order := some updatedOrder, fills := m.fills,
      newState :=
        { currentState with
          orderbook := newOrderbook
          balances := m.updatedBalances
          fills := currentState.fills ++ m.fills
          sequence := currentState.sequence + 1
          timestamp := now
          lastYesPrice := lastPrices.1
          lastNoPrice := lastPrices.2 } }

/-- The closure `removeFromList` inside `cancelOrder`: drop the first order
matching both id and owner, reporting whether one was found. -/
def removeFromList (orderId userId : String) : List Order → List Order × Bool
  | [] => ([], false)
  | o :: rest =>
    if o.id == orderId && o.userId == userId then (rest, true)
    else
      let r := removeFromList orderId userId rest
      (o :: r.1, r.2)

/-- `PredictionMarketMatcher.cancelOrder`. -/
def cancelOrder (state : PredictionMarketState) (orderId userId : String)
    (now : ℤ) : PredictionMarketState :=
  let yb := removeFromList orderId userId state.orderbook.yesBids
  let ya := removeFromList orderId userId state.orderbook.yesAsks
  let nb := removeFromList orderId userId state.orderbook.noBids
  let na := removeFromList orderId userId state.orderbook.noAsks
  if yb.2 || ya.2 || nb.2 || na.2 then
    { state with
      orderbook := { yesBids := yb.1, yesAsks := ya.1, noBids := nb.1, noAsks := na.1 }
      sequence := state.sequence + 1
      timestamp := now }
  else state

end Matcher

namespace Channel

/-- `OrderIntent` from `src/lib/protocol/types.ts`. -/
structure OrderIntent where
  marketId : String
  side : String
  quantity : String
  limitPrice : String
  nonce : ℤ
  expiresAt : ℤ
  signature : String
  userAddress : String
deriving DecidableEq

/-- `Fill` from `src/lib/protocol/types.ts` (the wire-level fill record). -/
structure Fill where
  orderId : String
  fillPrice : String
  fillQuantity : String
  fee : String
  timestamp : ℤ
  batchId : Option String
  operatorSignature : String
deriving DecidableEq

/-- The channel balances record `{base, quote}` (decimal strings). -/
structure Balances where
  base : String
  quote : String
deriving DecidableEq

/-- `StateUpdate` from `src/lib/protocol/types.ts`. -/
structure StateUpdate where
  channelId : String
  sequence : ℤ
  balances : Balances
  cumulativeFees : String
  timestamp : ℤ
  userSignature : String
  operatorSignature : String
deriving DecidableEq

/-- `ChannelState` from `src/lib/protocol/types.ts`. -/
structure ChannelState where
  id : String
  userAddress : String
  operatorAddress : String
  sequence : ℤ
  balances : Balances
  status : String
  latestState : Option StateUpdate
  nextNonce : ℤ
deriving DecidableEq

/-- The per-channel audit-log record `{orders, fills, states}` held in the
manager's `auditLog` map. -/
structure ChannelAuditLog where
  orders : List OrderIntent
  fills : List Fill
  states : List StateUpdate
deriving DecidableEq

/-- `ForceExitProof` from `src/lib/protocol/types.ts`. -/
structure ForceExitProof where
  channelId : String
  latestState : StateUpdate
  orderIntents : List OrderIntent
  fills : List Fill
  generatedAt : ℤ
deriving DecidableEq

/-- The two private `Map`s owned by `StateChannelManager`. -/
structure StateChannelManager where
  channels : List (String × ChannelState)
  auditLog : List (String × ChannelAuditLog)
deriving DecidableEq

open Matcher (findEntry setEntry)

/-- A manager with no channels, the state of the freshly constructed
`StateChannelManager`. -/
def emptyManager : StateChannelManager := { channels := [], auditLog := [] }

/-- `StateChannelManager.initializeChannel` (renamed): create the channel at
sequence 0 with status `opening` and an empty audit-log record. -/
def initChannel (mgr : StateChannelManager) (channelId userAddress operatorAddress : String)
    (initialBalances : Balances) : StateChannelManager :=
  { channels := setEntry mgr.channels channelId
      { id := channelId, userAddress := userAddress, operatorAddress := operatorAddress,
        sequence := 0, balances := initialBalances, status := "opening",
        latestState := none, nextNonce := 0 }
    auditLog := setEntry mgr.auditLog channelId { orders := [], fills := [], states := [] } }

/-- `StateChannelManager.updateChannelState`, parameterised over the EIP-712
verifier `verifyStateUpdateSignature` (an external cryptographic primitive;
its arguments are the update, the signature and the expected address).
Returns the source's boolean together with the resulting manager state. -/
def updateChannelState (verify : StateUpdate → String → String → Bool)
    (mgr : StateChannelManager) (channelId : String) (newState : StateUpdate) :
    Bool × StateChannelManager :=
  match findEntry mgr.channels channelId with
  | none => (false, mgr)
  | some channel =>
    if newState.sequence ≤ channel.sequence then (false, mgr)
    else if !(verify newState newState.userSignature channel.userAddress) then (false, mgr)
    else if !(verify newState newState.operatorSignature channel.operatorAddress) then (false, mgr)
    else
      let channel1 :=
        { channel with
          sequence := newState.sequence
          balances := newState.balances
          latestState := some newState }
      let auditLog1 :=
        match findEntry mgr.auditLog channelId with
        | some log => setEntry mgr.auditLog channelId { log with states := log.states ++ [newState] }
        | none => mgr.auditLog
      (true, { channels := setEntry mgr.channels channelId channel1, auditLog := auditLog1 })

/-- `StateChannelManager.recordOrderIntent`: append to the channel's order
audit log when the log record exists, otherwise do nothing. -/
def recordOrderIntent (mgr : StateChannelManager) (channelId : String)
    (order : OrderIntent) : StateChannelManager :=
  match findEntry mgr.auditLog channelId with
  | none => mgr
  | some log =>
    { mgr with auditLog := setEntry mgr.auditLog channelId { log with orders := log.orders ++ [order] } }

/-- `StateChannelManager.recordFill`: append to the channel's fill audit log
when the log record exists, otherwise do nothing. -/
def recordFill (mgr : StateChannelManager) (channelId : String)
    (fill : Fill) : StateChannelManager :=
  match findEntry mgr.auditLog channelId with
  | none => mgr
  | some log =>
    { mgr with auditLog := setEntry mgr.auditLog channelId { log with fills := log.fills ++ [fill] } }

/-- `StateChannelManager.generateForceExitProof`; `now` stands for the
`Date.now()` call producing `generatedAt`. -/
def generateForceExitProof (mgr : StateChannelManager) (channelId : String)
    (now : ℤ) : Option ForceExitProof :=
  match findEntry mgr.channels channelId with
  | none => none
  | some channel =>
    match channel.latestState with
    | none => none
    | some latest =>
      match findEntry mgr.auditLog channelId with
      | none => none
      | some log =>
        some { channelId := channelId
               latestState := latest
               orderIntents := log.orders.filter (fun o => decide (latest.timestamp < o.expiresAt))
               fills := log.fills.filter (fun f => decide (latest.timestamp < f.timestamp))
               generatedAt := now }

/-- The JSON value tree; `JSON.stringify`/`JSON.parse` are modelled as the
bijection between these trees and their (unmodelled) string rendering. -/
inductive Json where
  | str : String → Json
  | num : ℤ → Json
  | arr : List Json → Json
  | obj : List (String × Json) → Json

/-- The JSON object produced for a `StateUpdate`, field for field in
declaration order. -/
def encodeStateUpdate (u : StateUpdate) : Json :=
  Json.obj [("channelId", Json.str u.channelId),
            ("sequence", Json.num u.sequence),
            ("balances", Json.obj [("base", Json.str u.balances.base),
                                   ("quote", Json.str u.balances.quote)]),
            ("cumulativeFees", Json.str u.cumulativeFees),
            ("timestamp", Json.num u.timestamp),
            ("userSignature", Json.str u.userSignature),
            ("operatorSignature", Json.str u.operatorSignature)]

/-- Read a `StateUpdate` back from its JSON object. -/
def decodeStateUpdate : Json → Option StateUpdate
  | Json.obj [("channelId", Json.str c),
              ("sequence", Json.num s),
              ("balances", Json.obj [("base", Json.str bb), ("quote", Json.str q)]),
              ("cumulativeFees", Json.str f),
              ("timestamp", Json.num t),
              ("userSignature", Json.str us),
              ("operatorSignature", Json.str os)] =>
    some { channelId := c, sequence := s, balances := { base := bb, quote := q },
           cumulativeFees := f, timestamp := t, userSignature := us,
           operatorSignature := os }
  | _ => none

/-- The JSON object produced for an `OrderIntent`. -/
def encodeOrderIntent (o : OrderIntent) : Json :=
  Json.obj [("marketId", Json.str o.marketId),
            ("side", Json.str o.side),
            ("quantity", Json.str o.quantity),
            ("limitPrice", Json.str o.limitPrice),
            ("nonce", Json.num o.nonce),
            ("expiresAt", Json.num o.expiresAt),
            ("signature", Json.str o.signature),
            ("userAddress", Json.str o.userAddress)]

/-- Read an `OrderIntent` back from its JSON object. -/
def decodeOrderIntent : Json → Option OrderIntent
  | Json.obj [("marketId", Json.str m),
              ("side", Json.str sd),
              ("quantity", Json.str q),
              ("limitPrice", Json.str lp),
              ("nonce", Json.num n),
              ("expiresAt", Json.num e),
              ("signature", Json.str sg),
              ("userAddress", Json.str ua)] =>
    some { marketId := m, side := sd, quantity := q, limitPrice := lp,
           nonce := n, expiresAt := e, signature := sg, userAddress := ua }
  | _ => none

/-- The JSON object produced for a wire `Fill`; `JSON.stringify` omits the
optional `batchId` key when the field is `undefined`. -/
def encodeFill (f : Fill) : Json :=
  Json.obj ([("orderId", Json.str f.orderId),
             ("fillPrice", Json.str f.fillPrice),
             ("fillQuantity", Json.str f.fillQuantity),
             ("fee", Json.str f.fee),
             ("timestamp", Json.num f.timestamp)] ++
            (match f.batchId with
             | some b => [("batchId", Json.str b)]
             | none => []) ++
            [("operatorSignature", Json.str f.operatorSignature)])

/-- Read a wire `Fill` back from its JSON object (with or without `batchId`). -/
def decodeFill : Json → Option Fill
  | Json.obj [("orderId", Json.str o),
              ("fillPrice", Json.str p),
              ("fillQuantity", Json.str q),
              ("fee", Json.str fe),
              ("timestamp", Json.num t),
              ("batchId", Json.str b),
              ("operatorSignature", Json.str s)] =>
    some { orderId := o, fillPrice := p, fillQuantity := q, fee := fe,
           timestamp := t, batchId := some b, operatorSignature := s }
  | Json.obj [("orderId", Json.str o),
              ("fillPrice", Json.str p),
              ("fillQuantity", Json.str q),
              ("fee", Json.str fe),
              ("timestamp", Json.num t),
              ("operatorSignature", Json.str s)] =>
    some { orderId := o, fillPrice := p, fillQuantity := q, fee := fe,
           timestamp := t, batchId := none, operatorSignature := s }
  | _ => none

/-- Decode every element of a JSON array, failing if any element fails. -/
def decodeListWith {α : Type} (dec : Json → Option α) : List Json → Option (List α)
  | [] => some []
  | j :: rest =>
    match dec j, decodeListWith dec rest with
    | some x, some xs => some (x :: xs)
    | _, _ => none

/-- The JSON document produced by `JSON.stringify` for a `ForceExitProof`,
field for field in the order `generateForceExitProof` constructs them. -/
def encodeForceExitProof (p : ForceExitProof) : Json :=
  Json.obj [("channelId", Json.str p.channelId),
            ("latestState", encodeStateUpdate p.latestState),
            ("orderIntents", Json.arr (p.orderIntents.map encodeOrderIntent)),
            ("fills", Json.arr (p.fills.map encodeFill)),
            ("generatedAt", Json.num p.generatedAt)]

/-- Read a `ForceExitProof` back from its JSON document. -/
def decodeForceExitProof : Json → Option ForceExitProof
  | Json.obj [("channelId", Json.str c),
              ("latestState", js),
              ("orderIntents", Json.arr l1),
              ("fills", Json.arr l2),
              ("generatedAt", Json.num g)] =>
    match decodeStateUpdate js, decodeListWith decodeOrderIntent l1,
          decodeListWith decodeFill l2 with
    | some u, some ords, some fs =>
      some { channelId := c, latestState := u, orderIntents := ords,
             fills := fs, generatedAt := g }
    | _, _, _ => none
  | _ => none

/-- `StateChannelManager.exportProof`: serialize the generated proof (the
JSON text is modelled by its value tree). -/
def exportProof (mgr : StateChannelManager) (channelId : String) (now : ℤ) :
    Option Json :=
  (generateForceExitProof mgr channelId now).map encodeForceExitProof

/-- `StateChannelManager.importProof`: parse the JSON document back into a
proof object (`JSON.parse` plus the `as ForceExitProof` shape). -/
def importProof (proofJson : Json) : Option ForceExitProof :=
  decodeForceExitProof proofJson

end Channel

/-! ### Concrete instances and auxiliary definitions used by the theorems below -/

/-- Concrete instance for C10: a manager holding only channel `c1`; recording
against the never-initialized channel `c2` changes nothing. -/
def c10Mgr : Channel.StateChannelManager :=
  Channel.initChannel Channel.emptyManager "c1" "0xuser" "0xop" { base := "1", quote := "2" }

/-- A concrete order intent used by witnesses. -/
def c10Intent : Channel.OrderIntent :=
  { marketId := "ETH-USDC", side := "buy", quantity := "1", limitPrice := "2000",
    nonce := 0, expiresAt := 99, signature := "0xsig", userAddress := "0xuser" }

/-- A concrete wire fill used by witnesses. -/
def c10Fill : Channel.Fill :=
  { orderId := "o1", fillPrice := "2000", fillQuantity := "1", fee := "0",
    timestamp := 7, batchId := none, operatorSignature := "0xopsig" }

/-- A concrete manager used by several witnesses: one channel `c1` between
`0xuser` and `0xop`, freshly initialized at sequence 0. -/
def demoMgr : Channel.StateChannelManager :=
  Channel.initChannel Channel.emptyManager "c1" "0xuser" "0xop" { base := "1", quote := "2" }

/-- The channel record held by `demoMgr`. -/
def demoChannel0 : Channel.ChannelState :=
  { id := "c1", userAddress := "0xuser", operatorAddress := "0xop", sequence := 0,
    balances := { base := "1", quote := "2" }, status := "opening",
    latestState := none, nextNonce := 0 }

/-- A concrete dual-signed state update at sequence 3 for `c1`. -/
def demoUpd : Channel.StateUpdate :=
  { channelId := "c1", sequence := 3, balances := { base := "3", quote := "4" },
    cumulativeFees := "0", timestamp := 10, userSignature := "0xu", operatorSignature := "0xo" }

/-- `demoMgr` after the (accepted) `demoUpd`, now at sequence 3. -/
def demoMgr2 : Channel.StateChannelManager :=
  (Channel.updateChannelState (fun _ _ _ => true) demoMgr "c1" demoUpd).2

/-- The channel record held by `demoMgr2`. -/
def demoChannel2 : Channel.ChannelState :=
  { id := "c1", userAddress := "0xuser", operatorAddress := "0xop", sequence := 3,
    balances := { base := "3", quote := "4" }, status := "opening",
    latestState := some demoUpd, nextNonce := 0 }

/-- `demoMgr2` but with an intent expiring after `demoUpd.timestamp` and one
expiring before, plus a fill after and a fill before, to exercise the filter. -/
def demoMgr3 : Channel.StateChannelManager :=
  Channel.recordFill
    (Channel.recordFill
      (Channel.recordOrderIntent
        (Channel.recordOrderIntent demoMgr2 "c1" { c10Intent with expiresAt := 99 })
        "c1" { c10Intent with expiresAt := 5 })
      "c1" { c10Fill with timestamp := 42 })
    "c1" { c10Fill with timestamp := 7 }

/-- The cancellation criterion: the resting order carries the requested id and
is owned by the requesting user. -/
def cancelMatch (orderId userId : String) (o : Matcher.Order) : Prop :=
  o.id = orderId ∧ o.userId = userId

instance cancelMatchDecidable (orderId userId : String) (o : Matcher.Order) :
    Decidable (cancelMatch orderId userId o) :=
  instDecidableAnd

/-- The single resting order of the C8 witness book. -/
def c8Order : Matcher.Order :=
  { id := "m1", userId := "A", outcome := "YES", side := "BUY", type := "LIMIT",
    price := 1/2, quantity := 1, remainingQuantity := 1, timestamp := 0, status := "OPEN" }

/-- A one-order book used by the C8 witness. -/
def c8State : Matcher.PredictionMarketState :=
  { marketId := "mkt", question := "q",
    orderbook := { yesBids := [c8Order], yesAsks := [], noBids := [], noAsks := [] },
    balances := [("A", { usdc := 1, yes := 0, no := 0 })], fills := [], sequence := 4,
    timestamp := 0, lastYesPrice := none, lastNoPrice := none }

/-- A funded state used by the C5 witness. -/
def c5State : Matcher.PredictionMarketState :=
  { marketId := "mkt", question := "q",
    orderbook := { yesBids := [], yesAsks := [], noBids := [], noAsks := [] },
    balances := [("A", { usdc := 1, yes := 0, no := 0 })], fills := [], sequence := 0,
    timestamp := 0, lastYesPrice := none, lastNoPrice := none }

/-- A buy request whose cost 3 × 1/2 exceeds the 1 USDC balance. -/
def c5Req : Matcher.OrderRequest :=
  { userId := "A", outcome := "YES", side := "BUY", type := "LIMIT",
    price := some (1/2), quantity := 3 }

/-- Sum of one balance field over all participants. -/
def totalBy (f : Matcher.UserBalance → ℚ) (bal : List (String × Matcher.UserBalance)) : ℚ :=
  (bal.map (fun p => f p.2)).sum

/-- A constant id supply for concrete runs whose ids play no role. -/
def cexIds : ℕ → String := fun _ => "t"

/-- A resting YES bid owned by `A` at price 1/2. -/
def c1Maker : Matcher.Order :=
  { id := "m1", userId := "A", outcome := "YES", side := "BUY", type := "LIMIT",
    price := 1/2, quantity := 1, remainingQuantity := 1, timestamp := 0, status := "OPEN" }

/-- A state in which `A` (1 USDC, 1 YES) rests their own bid. -/
def c1State : Matcher.PredictionMarketState :=
  { marketId := "mkt", question := "q",
    orderbook := { yesBids := [c1Maker], yesAsks := [], noBids := [], noAsks := [] },
    balances := [("A", { usdc := 1, yes := 1, no := 0 })], fills := [], sequence := 0,
    timestamp := 0, lastYesPrice := none, lastNoPrice := none }

/-- `A` sells 1 YES at 1/2 into their own resting bid. -/
def c1Req : Matcher.OrderRequest :=
  { userId := "A", outcome := "YES", side := "SELL", type := "LIMIT",
    price := some (1/2), quantity := 1 }

/-- A two-user state for the C1 witness: `B` rests a YES bid, `A` holds the
token. -/
def c1wState : Matcher.PredictionMarketState :=
  { marketId := "mkt", question := "q",
    orderbook :=
      { yesBids := [{ id := "m1", userId := "B", outcome := "YES", side := "BUY",
                      type := "LIMIT", price := 1/2, quantity := 1, remainingQuantity := 1,
                      timestamp := 0, status := "OPEN" }],
        yesAsks := [], noBids := [], noAsks := [] },
    balances := [("A", { usdc := 0, yes := 1, no := 0 }), ("B", { usdc := 1, yes := 0, no := 0 })],
    fills := [], sequence := 0, timestamp := 0, lastYesPrice := none, lastNoPrice := none }

/-- `A` sells 1 YES at 1/2, matching `B`'s bid. -/
def c1wReq : Matcher.OrderRequest :=
  { userId := "A", outcome := "YES", side := "SELL", type := "LIMIT",
    price := some (1/2), quantity := 1 }

/-- All balances in the state are componentwise non-negative. -/
def allBalancesNonneg (st : Matcher.PredictionMarketState) : Bool :=
  st.balances.all (fun p =>
    decide (0 ≤ p.2.usdc) && decide (0 ≤ p.2.yes) && decide (0 ≤ p.2.no))

/-- `A` holds 1 USDC, `B` holds 2 YES tokens; the book is empty. -/
def c4State0 : Matcher.PredictionMarketState :=
  { marketId := "mkt", question := "q",
    orderbook := { yesBids := [], yesAsks := [], noBids := [], noAsks := [] },
    balances := [("A", { usdc := 1, yes := 0, no := 0 }), ("B", { usdc := 0, yes := 2, no := 0 })],
    fills := [], sequence := 0, timestamp := 0, lastYesPrice := none, lastNoPrice := none }

/-- `A` bids 9/10 for 1 YES — individually affordable on 1 USDC. -/
def c4Req1 : Matcher.OrderRequest :=
  { userId := "A", outcome := "YES", side := "BUY", type := "LIMIT",
    price := some (9/10), quantity := 1 }

/-- `B` sells 2 YES at 1/2, crossing both of `A`'s resting bids. -/
def c4Req3 : Matcher.OrderRequest :=
  { userId := "B", outcome := "YES", side := "SELL", type := "LIMIT",
    price := some (1/2), quantity := 2 }

/-- After `A`'s first bid rests. -/
def c4State1 : Matcher.PredictionMarketState :=
  (Matcher.processOrder (fun _ => "o1") 1 c4State0 c4Req1).newState

/-- After `A`'s second, identical bid also rests: validation re-checked the
unchanged 1 USDC balance, reserving nothing for the first bid. -/
def c4State2 : Matcher.PredictionMarketState :=
  (Matcher.processOrder (fun _ => "o2") 2 c4State1 c4Req1).newState

/-- After `B`'s sell fills both bids at 9/10 each. -/
def c4State3 : Matcher.PredictionMarketState :=
  (Matcher.processOrder (fun _ => "t3") 3 c4State2 c4Req3).newState

/-- Reference walk written from the spec's words for the matching loop:
"repeatedly select the best resting order on the opposite side ... continue
while remaining taker quantity > 0 and the best opposing price is acceptable;
fill price is always the maker's price, fill quantity is
min(takerRemaining, makerRemaining)".  Each element is the (maker id, price,
quantity) of one expected fill, in order. -/
def fillsSpec (taker : Matcher.Order) : ℚ → List Matcher.Order → List (String × ℚ × ℚ)
  | _, [] => []
  | rem, m :: rest =>
    if 0 < rem ∧ Matcher.canMatch taker m = true then
      (m.id, m.price, min rem m.remainingQuantity) ::
        fillsSpec taker (rem - min rem m.remainingQuantity) rest
    else []

/-- The (outcome, side) fields that orders resting in the list
`takerSideList _ s w` carry in a well-formed book. -/
def sideLabel (s w : String) : String × String :=
  if s == "BUY" then (if w == "YES" then ("YES", "SELL") else ("NO", "SELL"))
  else (if w == "YES" then ("YES", "BUY") else ("NO", "BUY"))

/-- Book well-formedness: every resting order sits in the list named by its
own outcome and side (which `addToOrderbook` guarantees). -/
def bookWF (ob : Matcher.Orderbook) : Prop :=
  (∀ o ∈ ob.yesAsks, o.outcome = "YES" ∧ o.side = "SELL") ∧
  (∀ o ∈ ob.yesBids, o.outcome = "YES" ∧ o.side = "BUY") ∧
  (∀ o ∈ ob.noAsks, o.outcome = "NO" ∧ o.side = "SELL") ∧
  (∀ o ∈ ob.noBids, o.outcome = "NO" ∧ o.side = "BUY")

/-- Three resting YES asks for the C3 witness: two at 2/5 (timestamps 5 and 3)
and one at 3/5. -/
def c3State : Matcher.PredictionMarketState :=
  { marketId := "mkt", question := "q",
    orderbook :=
      { yesBids := [],
        yesAsks :=
          [{ id := "a1", userId := "B", outcome := "YES", side := "SELL", type := "LIMIT",
             price := 2/5, quantity := 1, remainingQuantity := 1, timestamp := 5, status := "OPEN" },
           { id := "a2", userId := "C", outcome := "YES", side := "SELL", type := "LIMIT",
             price := 2/5, quantity := 1, remainingQuantity := 1, timestamp := 3, status := "OPEN" },
           { id := "a3", userId := "D", outcome := "YES", side := "SELL", type := "LIMIT",
             price := 3/5, quantity := 5, remainingQuantity := 5, timestamp := 1, status := "OPEN" }],
        noBids := [], noAsks := [] },
    balances :=
      [("A", { usdc := 3, yes := 0, no := 0 }), ("B", { usdc := 0, yes := 1, no := 0 }),
       ("C", { usdc := 0, yes := 1, no := 0 }), ("D", { usdc := 0, yes := 5, no := 0 })],
    fills := [], sequence := 0, timestamp := 0, lastYesPrice := none, lastNoPrice := none }

/-- A buy for 3 YES at limit 1/2: crosses both 2/5 asks (earliest timestamp
first), not the 3/5 ask. -/
def c3Taker : Matcher.Order :=
  { id := "t", userId := "A", outcome := "YES", side := "BUY", type := "LIMIT",
    price := 1/2, quantity := 3, remainingQuantity := 3, timestamp := 9, status := "OPEN" }

section AssocLemmas

variable {α : Type}

theorem findEntry_setEntry_self (m : List (String × α)) (k : String) (v : α) :
    Matcher.findEntry (Matcher.setEntry m k v) k = some v := by
  induction m with
  | nil => simp [Matcher.findEntry, Matcher.setEntry]
  | cons hd tl ih =>
    obtain ⟨k1, v1⟩ := hd
    by_cases h : k1 = k
    · simp [Matcher.findEntry, Matcher.setEntry, h]
    · simp [Matcher.findEntry, Matcher.setEntry, h, ih]

theorem findEntry_setEntry_ne (m : List (String × α)) (k k2 : String) (v : α)
    (h : k2 ≠ k) :
    Matcher.findEntry (Matcher.setEntry m k v) k2 = Matcher.findEntry m k2 := by
  induction m with
  | nil =>
    have hne : ¬(k = k2) := fun hh => h hh.symm
    simp [Matcher.findEntry, Matcher.setEntry, hne]
  | cons hd tl ih =>
    obtain ⟨k1, v1⟩ := hd
    by_cases h1 : k1 = k
    · subst h1
      have hne : ¬(k1 = k2) := fun hh => h hh.symm
      simp [Matcher.findEntry, Matcher.setEntry, hne]
    · simp only [Matcher.setEntry, beq_iff_eq, h1, if_false, Matcher.findEntry]
      by_cases h2 : k1 = k2
      · simp [h2]
      · simp [h2, ih]

theorem isSome_findEntry_setEntry (m : List (String × α)) (k k2 : String) (v : α)
    (h : (Matcher.findEntry m k2).isSome) :
    (Matcher.findEntry (Matcher.setEntry m k v) k2).isSome := by
  by_cases hk : k2 = k
  · subst hk
    simp [findEntry_setEntry_self]
  · rw [findEntry_setEntry_ne m k k2 v hk]
    exact h

end AssocLemmas

theorem mathMin_eq_min (a b : ℚ) : Matcher.mathMin a b = min a b := by
  simp [Matcher.mathMin, min_def]

/-- C10: `recordOrderIntent` and `recordFill` on a channel id that has no
audit-log record (in particular one for which `initializeChannel` was never
called, since only `initializeChannel` creates that record) leave the manager
completely unchanged and report nothing, so no later force-exit proof can
reflect the submitted intent or fill. -/
theorem recordOnUnknownChannelIsNoOp (mgr : Channel.StateChannelManager)
    (channelId : String) (o : Channel.OrderIntent) (f : Channel.Fill)
    (h : Matcher.findEntry mgr.auditLog channelId = none) :
    Channel.recordOrderIntent mgr channelId o = mgr ∧
    Channel.recordFill mgr channelId f = mgr ∧
    (∀ id2 now, Channel.generateForceExitProof (Channel.recordOrderIntent mgr channelId o) id2 now
        = Channel.generateForceExitProof mgr id2 now) ∧
    (∀ id2 now, Channel.generateForceExitProof (Channel.recordFill mgr channelId f) id2 now
        = Channel.generateForceExitProof mgr id2 now) := by
  have h1 : Channel.recordOrderIntent mgr channelId o = mgr := by
    unfold Channel.recordOrderIntent
    rw [h]
  have h2 : Channel.recordFill mgr channelId f = mgr := by
    unfold Channel.recordFill
    rw [h]
  exact ⟨h1, h2, fun id2 now => by rw [h1], fun id2 now => by rw [h2]⟩

theorem recordOnUnknownChannelIsNoOp_witness :
    Matcher.findEntry c10Mgr.auditLog "c2" = none ∧
    Channel.recordOrderIntent c10Mgr "c2" c10Intent = c10Mgr ∧
    Channel.recordFill c10Mgr "c2" c10Fill = c10Mgr :=
  ⟨by decide,
   (recordOnUnknownChannelIsNoOp c10Mgr "c2" c10Intent c10Fill (by decide)).1,
   (recordOnUnknownChannelIsNoOp c10Mgr "c2" c10Intent c10Fill (by decide)).2.1⟩

/-- C7: an update whose sequence (3) strictly exceeds the channel's current
sequence (0) and whose two signatures verify is accepted, regardless of the
gap: `updateChannelState` only requires strict increase, not contiguity, and
installs the update's sequence, balances and latest state. -/
theorem updateAcceptsSequenceGap (verify : Channel.StateUpdate → String → String → Bool)
    (mgr : Channel.StateChannelManager) (channelId : String)
    (ch : Channel.ChannelState) (upd : Channel.StateUpdate)
    (hch : Matcher.findEntry mgr.channels channelId = some ch)
    (hseq : ch.sequence = 0) (hupd : upd.sequence = 3)
    (hu : verify upd upd.userSignature ch.userAddress = true)
    (ho : verify upd upd.operatorSignature ch.operatorAddress = true) :
    (Channel.updateChannelState verify mgr channelId upd).1 = true ∧
    Matcher.findEntry (Channel.updateChannelState verify mgr channelId upd).2.channels channelId
      = some { ch with sequence := 3, balances := upd.balances, latestState := some upd } := by
  unfold Channel.updateChannelState
  rw [hch]
  have hlt : ¬(upd.sequence ≤ ch.sequence) := by omega
  simp only [hlt, if_false, hu, ho, Bool.not_true, Bool.false_eq_true]
  rw [hupd]
  exact ⟨trivial, findEntry_setEntry_self _ _ _⟩

theorem updateAcceptsSequenceGap_witness :
    (Channel.updateChannelState (fun _ _ _ => true) demoMgr "c1" demoUpd).1 = true :=
  (updateAcceptsSequenceGap (fun _ _ _ => true) demoMgr "c1" demoChannel0 demoUpd
    (by decide) rfl rfl rfl rfl).1

/-- C2: `updateChannelState` rejects (returns `false`) every update whose
sequence is not strictly greater than the channel's, for every possible
signature verifier (so regardless of signature validity); every rejection,
for whatever reason, leaves the manager exactly as it was; and on success the
channel's sequence, balances and latest state are all replaced and the update
is appended to the channel's audit-log states (all-or-nothing). -/
theorem updateChannelStateAtomic (verify : Channel.StateUpdate → String → String → Bool)
    (mgr : Channel.StateChannelManager) (channelId : String) (upd : Channel.StateUpdate) :
    (∀ ch, Matcher.findEntry mgr.channels channelId = some ch →
       upd.sequence ≤ ch.sequence →
       Channel.updateChannelState verify mgr channelId upd = (false, mgr)) ∧
    ((Channel.updateChannelState verify mgr channelId upd).1 = false →
       (Channel.updateChannelState verify mgr channelId upd).2 = mgr) ∧
    (∀ ch log, Matcher.findEntry mgr.channels channelId = some ch →
       Matcher.findEntry mgr.auditLog channelId = some log →
       (Channel.updateChannelState verify mgr channelId upd).1 = true →
       Matcher.findEntry (Channel.updateChannelState verify mgr channelId upd).2.channels channelId
         = some { ch with sequence := upd.sequence, balances := upd.balances,
                          latestState := some upd } ∧
       Matcher.findEntry (Channel.updateChannelState verify mgr channelId upd).2.auditLog channelId
         = some { log with states := log.states ++ [upd] }) := by
  refine ⟨?_, ?_, ?_⟩
  · intro ch hch hle
    unfold Channel.updateChannelState
    rw [hch]
    simp [hle]
  · intro hfalse
    unfold Channel.updateChannelState at hfalse ⊢
    cases hch : Matcher.findEntry mgr.channels channelId with
    | none => rfl
    | some ch =>
      rw [hch] at hfalse
      by_cases h1 : upd.sequence ≤ ch.sequence
      · simp [h1]
      · by_cases h2 : verify upd upd.userSignature ch.userAddress
        · by_cases h3 : verify upd upd.operatorSignature ch.operatorAddress
          · simp [h1, h2, h3] at hfalse
          · simp [h1, h2, h3]
        · simp [h1, h2]
  · intro ch log hch hlog htrue
    unfold Channel.updateChannelState at htrue ⊢
    rw [hch] at htrue
    rw [hch]
    by_cases h1 : upd.sequence ≤ ch.sequence
    · simp [h1] at htrue
    · simp only [h1, if_false] at htrue ⊢
      by_cases h2 : verify upd upd.userSignature ch.userAddress
      · simp only [h2, Bool.not_true, Bool.false_eq_true, if_false] at htrue ⊢
        by_cases h3 : verify upd upd.operatorSignature ch.operatorAddress
        · simp only [h3, Bool.not_true, Bool.false_eq_true, if_false]
          rw [hlog]
          exact ⟨findEntry_setEntry_self _ _ _, by rw [findEntry_setEntry_self]⟩
        · simp [h3] at htrue
      · simp [h2] at htrue

theorem updateChannelStateAtomic_witness :
    Channel.updateChannelState (fun _ _ _ => true) demoMgr2 "c1" demoUpd = (false, demoMgr2) ∧
    Matcher.findEntry (Channel.updateChannelState (fun _ _ _ => true) demoMgr "c1" demoUpd).2.auditLog "c1"
      = some { orders := [], fills := [], states := [demoUpd] } := by
  constructor
  · exact (updateChannelStateAtomic (fun _ _ _ => true) demoMgr2 "c1" demoUpd).1
      demoChannel2 (by decide) (by decide)
  · have h := ((updateChannelStateAtomic (fun _ _ _ => true) demoMgr "c1" demoUpd).2.2
      demoChannel0 { orders := [], fills := [], states := [] }
      (by decide) (by decide) rfl).2
    simpa using h

/-- C6: `generateForceExitProof` fails exactly when the channel is unknown or
has never had an accepted dual-signed update (`latestState` absent), assuming
the structural invariant that every known channel owns an audit-log record
(which `initializeChannel` establishes and no operation breaks); otherwise it
returns the latest accepted state, exactly the recorded intents whose expiry
exceeds that state's timestamp, exactly the recorded fills whose timestamp
exceeds it, and the generation time. -/
theorem generateForceExitProofCharacterization (mgr : Channel.StateChannelManager)
    (channelId : String) (now : ℤ)
    (hinv : ∀ ch, Matcher.findEntry mgr.channels channelId = some ch →
       (Matcher.findEntry mgr.auditLog channelId).isSome) :
    (Channel.generateForceExitProof mgr channelId now = none ↔
       Matcher.findEntry mgr.channels channelId = none ∨
       (∃ ch, Matcher.findEntry mgr.channels channelId = some ch ∧ ch.latestState = none)) ∧
    (∀ ch latest log, Matcher.findEntry mgr.channels channelId = some ch →
       ch.latestState = some latest →
       Matcher.findEntry mgr.auditLog channelId = some log →
       Channel.generateForceExitProof mgr channelId now =
         some { channelId := channelId
                latestState := latest
                orderIntents := log.orders.filter (fun o => decide (latest.timestamp < o.expiresAt))
                fills := log.fills.filter (fun f => decide (latest.timestamp < f.timestamp))
                generatedAt := now }) := by
  constructor
  · constructor
    · intro h
      cases hch : Matcher.findEntry mgr.channels channelId with
      | none => exact Or.inl rfl
      | some ch =>
        cases hlatest : ch.latestState with
        | none => exact Or.inr ⟨ch, rfl, hlatest⟩
        | some latest =>
          exfalso
          have hsome := hinv ch hch
          cases hlog : Matcher.findEntry mgr.auditLog channelId with
          | none => rw [hlog] at hsome; simp at hsome
          | some log =>
            simp only [Channel.generateForceExitProof, hch, hlatest, hlog] at h
            simp at h
    · rintro (hch | ⟨ch, hch, hlatest⟩)
      · simp [Channel.generateForceExitProof, hch]
      · simp [Channel.generateForceExitProof, hch, hlatest]
  · intro ch latest log hch hlatest hlog
    simp only [Channel.generateForceExitProof, hch, hlatest, hlog]

theorem generateForceExitProofCharacterization_witness :
    Channel.generateForceExitProof demoMgr "c1" 50 = none ∧
    Channel.generateForceExitProof demoMgr3 "c1" 50 =
      some { channelId := "c1"
             latestState := demoUpd
             orderIntents := [{ c10Intent with expiresAt := 99 }]
             fills := [{ c10Fill with timestamp := 42 }]
             generatedAt := 50 } := by
  constructor
  · exact (generateForceExitProofCharacterization demoMgr "c1" 50
      (fun ch h => by decide)).1.mpr
      (Or.inr ⟨demoChannel0, by decide, rfl⟩)
  · have h := (generateForceExitProofCharacterization demoMgr3 "c1" 50
      (fun ch h => by decide)).2 demoChannel2 demoUpd
      { orders := [{ c10Intent with expiresAt := 99 }, { c10Intent with expiresAt := 5 }]
        fills := [{ c10Fill with timestamp := 42 }, { c10Fill with timestamp := 7 }]
        states := [demoUpd] }
      (by decide) rfl (by decide)
    rw [h]
    decide

theorem decodeStateUpdate_encode (u : Channel.StateUpdate) :
    Channel.decodeStateUpdate (Channel.encodeStateUpdate u) = some u := rfl

theorem decodeOrderIntent_encode (o : Channel.OrderIntent) :
    Channel.decodeOrderIntent (Channel.encodeOrderIntent o) = some o := rfl

theorem decodeFill_encode (f : Channel.Fill) :
    Channel.decodeFill (Channel.encodeFill f) = some f := by
  obtain ⟨o, p, q, fe, t, b, s⟩ := f
  cases b <;> rfl

theorem decodeListWith_map {α : Type} (dec : Channel.Json → Option α)
    (enc : α → Channel.Json) (h : ∀ x, dec (enc x) = some x) (l : List α) :
    Channel.decodeListWith dec (l.map enc) = some l := by
  induction l with
  | nil => rfl
  | cons x xs ih =>
    simp only [List.map_cons, Channel.decodeListWith, h x, ih]

theorem decodeForceExitProof_encode (p : Channel.ForceExitProof) :
    Channel.decodeForceExitProof (Channel.encodeForceExitProof p) = some p := by
  simp only [Channel.encodeForceExitProof, Channel.decodeForceExitProof,
    decodeStateUpdate_encode,
    decodeListWith_map Channel.decodeOrderIntent Channel.encodeOrderIntent
      decodeOrderIntent_encode,
    decodeListWith_map Channel.decodeFill Channel.encodeFill decodeFill_encode]

/-- C9: whenever a force-exit proof can be generated, importing the exported
JSON document reproduces a proof structurally equal to the generated one;
stated as: export followed by import agrees exactly with generation (both are
`none` exactly when no proof exists). -/
theorem exportImportRoundTrip (mgr : Channel.StateChannelManager)
    (channelId : String) (now : ℤ) :
    (Channel.exportProof mgr channelId now).bind Channel.importProof
      = Channel.generateForceExitProof mgr channelId now := by
  unfold Channel.exportProof Channel.importProof
  cases h : Channel.generateForceExitProof mgr channelId now with
  | none => rfl
  | some p =>
    simp [decodeForceExitProof_encode]

theorem removeFromList_eq_self (orderId userId : String) (l : List Matcher.Order)
    (h : ∀ o ∈ l, ¬ cancelMatch orderId userId o) :
    Matcher.removeFromList orderId userId l = (l, false) := by
  induction l with
  | nil => rfl
  | cons o rest ih =>
    have hno : ¬((o.id == orderId && o.userId == userId) = true) := by
      simp only [Bool.and_eq_true, beq_iff_eq]
      exact fun hc => h o (List.mem_cons_self o rest) ⟨hc.1, hc.2⟩
    simp only [Matcher.removeFromList, hno, if_false]
    rw [ih (fun o2 ho2 => h o2 (List.mem_cons_of_mem o ho2))]
    simp

theorem removeFromList_found (orderId userId : String) (l : List Matcher.Order)
    (h : ∃ o ∈ l, cancelMatch orderId userId o) :
    (Matcher.removeFromList orderId userId l).2 = true := by
  induction l with
  | nil => obtain ⟨o, ho, _⟩ := h; exact absurd ho (List.not_mem_nil o)
  | cons o rest ih =>
    by_cases hm : (o.id == orderId && o.userId == userId) = true
    · simp [Matcher.removeFromList, hm]
    · simp only [Matcher.removeFromList, hm, if_false]
      obtain ⟨o2, ho2, hc2⟩ := h
      rcases List.mem_cons.mp ho2 with he | hmem
      · subst he
        exact absurd (by simp only [Bool.and_eq_true, beq_iff_eq]; exact ⟨hc2.1, hc2.2⟩) hm
      · exact ih ⟨o2, hmem, hc2⟩

theorem removeFromList_clears (orderId userId : String) (l : List Matcher.Order)
    (h : (l.filter (fun o => o.id == orderId && o.userId == userId)).length ≤ 1) :
    ∀ o ∈ (Matcher.removeFromList orderId userId l).1, ¬ cancelMatch orderId userId o := by
  induction l with
  | nil => intro o ho; exact absurd ho (List.not_mem_nil o)
  | cons o rest ih =>
    by_cases hm : (o.id == orderId && o.userId == userId) = true
    · simp only [Matcher.removeFromList, hm, if_true]
      intro o2 ho2 hc2
      have hzero : (rest.filter (fun o => o.id == orderId && o.userId == userId)).length = 0 := by
        simp only [List.filter_cons, hm, if_true, List.length_cons] at h
        omega
      have hmem : o2 ∈ rest.filter (fun o => o.id == orderId && o.userId == userId) := by
        rw [List.mem_filter]
        refine ⟨ho2, ?_⟩
        simp only [Bool.and_eq_true, beq_iff_eq]
        exact ⟨hc2.1, hc2.2⟩
      rw [List.length_eq_zero] at hzero
      rw [hzero] at hmem
      exact absurd hmem (List.not_mem_nil o2)
    · simp only [Matcher.removeFromList, hm, if_false]
      intro o2 ho2
      have ho2m : o2 ∈ o :: (Matcher.removeFromList orderId userId rest).1 := by
        simpa using ho2
      rcases List.mem_cons.mp ho2m with he | hmem
      · subst he
        intro hc2
        exact hm (by simp only [Bool.and_eq_true, beq_iff_eq]; exact ⟨hc2.1, hc2.2⟩)
      · have hrest : (rest.filter (fun o => o.id == orderId && o.userId == userId)).length ≤ 1 := by
          simp only [List.filter_cons, hm, if_false] at h
          exact h
        exact ih hrest o2 hmem

theorem cancelOrder_of_no_match (st : Matcher.PredictionMarketState)
    (orderId userId : String) (now : ℤ)
    (h1 : ∀ o ∈ st.orderbook.yesBids, ¬ cancelMatch orderId userId o)
    (h2 : ∀ o ∈ st.orderbook.yesAsks, ¬ cancelMatch orderId userId o)
    (h3 : ∀ o ∈ st.orderbook.noBids, ¬ cancelMatch orderId userId o)
    (h4 : ∀ o ∈ st.orderbook.noAsks, ¬ cancelMatch orderId userId o) :
    Matcher.cancelOrder st orderId userId now = st := by
  unfold Matcher.cancelOrder
  rw [removeFromList_eq_self orderId userId _ h1, removeFromList_eq_self orderId userId _ h2,
      removeFromList_eq_self orderId userId _ h3, removeFromList_eq_self orderId userId _ h4]
  simp

theorem cancelOrder_of_found (st : Matcher.PredictionMarketState)
    (orderId userId : String) (now : ℤ)
    (h : (∃ o ∈ st.orderbook.yesBids, cancelMatch orderId userId o) ∨
         (∃ o ∈ st.orderbook.yesAsks, cancelMatch orderId userId o) ∨
         (∃ o ∈ st.orderbook.noBids, cancelMatch orderId userId o) ∨
         (∃ o ∈ st.orderbook.noAsks, cancelMatch orderId userId o)) :
    Matcher.cancelOrder st orderId userId now =
      { st with
        orderbook :=
          { yesBids := (Matcher.removeFromList orderId userId st.orderbook.yesBids).1
            yesAsks := (Matcher.removeFromList orderId userId st.orderbook.yesAsks).1
            noBids := (Matcher.removeFromList orderId userId st.orderbook.noBids).1
            noAsks := (Matcher.removeFromList orderId userId st.orderbook.noAsks).1 }
        sequence := st.sequence + 1
        timestamp := now } := by
  unfold Matcher.cancelOrder
  have hfound : ((Matcher.removeFromList orderId userId st.orderbook.yesBids).2 ||
      (Matcher.removeFromList orderId userId st.orderbook.yesAsks).2 ||
      (Matcher.removeFromList orderId userId st.orderbook.noBids).2 ||
      (Matcher.removeFromList orderId userId st.orderbook.noAsks).2) = true := by
    rcases h with h1 | h2 | h3 | h4
    · simp [removeFromList_found orderId userId _ h1]
    · simp [removeFromList_found orderId userId _ h2]
    · simp [removeFromList_found orderId userId _ h3]
    · simp [removeFromList_found orderId userId _ h4]
  simp only [hfound, if_true]

/-- C8: `cancelOrder` removes the matching resting order when one with the
given id and owner rests on any side (bumping the sequence), is the identity
when no such order exists (and never an error, being a total function), and —
since each side holds at most one order with a given id and owner — cancelling
the same id twice equals cancelling it once. -/
theorem cancelOrderBehaviour (st : Matcher.PredictionMarketState)
    (orderId userId : String) (now now2 : ℤ) :
    (((∀ o ∈ st.orderbook.yesBids, ¬ cancelMatch orderId userId o) ∧
      (∀ o ∈ st.orderbook.yesAsks, ¬ cancelMatch orderId userId o) ∧
      (∀ o ∈ st.orderbook.noBids, ¬ cancelMatch orderId userId o) ∧
      (∀ o ∈ st.orderbook.noAsks, ¬ cancelMatch orderId userId o)) →
       Matcher.cancelOrder st orderId userId now = st) ∧
    (((∃ o ∈ st.orderbook.yesBids, cancelMatch orderId userId o) ∨
      (∃ o ∈ st.orderbook.yesAsks, cancelMatch orderId userId o) ∨
      (∃ o ∈ st.orderbook.noBids, cancelMatch orderId userId o) ∨
      (∃ o ∈ st.orderbook.noAsks, cancelMatch orderId userId o)) →
       Matcher.cancelOrder st orderId userId now =
         { st with
           orderbook :=
             { yesBids := (Matcher.removeFromList orderId userId st.orderbook.yesBids).1
               yesAsks := (Matcher.removeFromList orderId userId st.orderbook.yesAsks).1
               noBids := (Matcher.removeFromList orderId userId st.orderbook.noBids).1
               noAsks := (Matcher.removeFromList orderId userId st.orderbook.noAsks).1 }
           sequence := st.sequence + 1
           timestamp := now }) ∧
    (((st.orderbook.yesBids.filter (fun o => o.id == orderId && o.userId == userId)).length ≤ 1 ∧
      (st.orderbook.yesAsks.filter (fun o => o.id == orderId && o.userId == userId)).length ≤ 1 ∧
      (st.orderbook.noBids.filter (fun o => o.id == orderId && o.userId == userId)).length ≤ 1 ∧
      (st.orderbook.noAsks.filter (fun o => o.id == orderId && o.userId == userId)).length ≤ 1) →
       Matcher.cancelOrder (Matcher.cancelOrder st orderId userId now) orderId userId now2
         = Matcher.cancelOrder st orderId userId now) := by
  refine ⟨?_, ?_, ?_⟩
  · intro ⟨h1, h2, h3, h4⟩
    exact cancelOrder_of_no_match st orderId userId now h1 h2 h3 h4
  · intro h
    exact cancelOrder_of_found st orderId userId now h
  · intro ⟨hu1, hu2, hu3, hu4⟩
    by_cases hany : (∃ o ∈ st.orderbook.yesBids, cancelMatch orderId userId o) ∨
        (∃ o ∈ st.orderbook.yesAsks, cancelMatch orderId userId o) ∨
        (∃ o ∈ st.orderbook.noBids, cancelMatch orderId userId o) ∨
        (∃ o ∈ st.orderbook.noAsks, cancelMatch orderId userId o)
    · rw [cancelOrder_of_found st orderId userId now hany]
      exact cancelOrder_of_no_match _ orderId userId now2
        (removeFromList_clears orderId userId _ hu1)
        (removeFromList_clears orderId userId _ hu2)
        (removeFromList_clears orderId userId _ hu3)
        (removeFromList_clears orderId userId _ hu4)
    · push_neg at hany
      obtain ⟨g1, g2, g3, g4⟩ := hany
      rw [cancelOrder_of_no_match st orderId userId now g1 g2 g3 g4,
          cancelOrder_of_no_match st orderId userId now2 g1 g2 g3 g4]

theorem cancelOrderBehaviour_witness :
    Matcher.cancelOrder c8State "zz" "A" 9 = c8State ∧
    (Matcher.cancelOrder c8State "m1" "A" 9).orderbook.yesBids = [] ∧
    (Matcher.cancelOrder c8State "m1" "A" 9).sequence = 5 ∧
    Matcher.cancelOrder (Matcher.cancelOrder c8State "m1" "A" 9) "m1" "A" 11
      = Matcher.cancelOrder c8State "m1" "A" 9 := by
  have hex : ∃ o ∈ c8State.orderbook.yesBids, cancelMatch "m1" "A" o :=
    ⟨c8Order, List.mem_cons_self c8Order [], rfl, rfl⟩
  refine ⟨?_, ?_, ?_, ?_⟩
  · exact (cancelOrderBehaviour c8State "zz" "A" 9 9).1
      ⟨by decide, by decide, by decide, by decide⟩
  · rw [(cancelOrderBehaviour c8State "m1" "A" 9 9).2.1 (Or.inl hex)]
    decide
  · rw [(cancelOrderBehaviour c8State "m1" "A" 9 9).2.1 (Or.inl hex)]
    decide
  · exact (cancelOrderBehaviour c8State "m1" "A" 9 11).2.2
      ⟨by decide, by decide, by decide, by decide⟩

theorem validateRequest_ne_none_iff (st : Matcher.PredictionMarketState)
    (r : Matcher.OrderRequest) :
    Matcher.validateRequest st r ≠ none ↔
      (Matcher.findEntry st.balances r.userId = none ∨
       r.quantity ≤ 0 ∨
       (r.type = "LIMIT" ∧ ∀ p, r.price = some p → (p ≤ 0 ∨ 1 ≤ p)) ∨
       (r.side = "BUY" ∧ ∃ b, Matcher.findEntry st.balances r.userId = some b ∧
          b.usdc < Matcher.orDefaultOne r.price * r.quantity) ∨
       (r.side ≠ "BUY" ∧ ∃ b, Matcher.findEntry st.balances r.userId = some b ∧
          Matcher.tokensOf b r.outcome < r.quantity)) := by
  unfold Matcher.validateRequest
  cases hf : Matcher.findEntry st.balances r.userId with
  | none => simp
  | some b =>
    by_cases hq : r.quantity ≤ 0
    · simp only [hq, if_true]
      exact ⟨fun _ => Or.inr (Or.inl trivial), fun _ => by simp⟩
    · simp only [hq, if_false]
      by_cases ht : r.type = "LIMIT"
      · have htb : (r.type == "LIMIT") = true := by simp [ht]
        simp only [htb, if_true]
        cases hp : r.price with
        | none =>
          constructor
          · intro _
            refine Or.inr (Or.inr (Or.inl ⟨ht, fun p hpp => ?_⟩))
            exact Option.noConfusion hpp
          · intro _
            simp
        | some p =>
          by_cases hbad : p ≤ 0 ∨ 1 ≤ p
          · simp only [hbad, if_true]
            constructor
            · intro _
              refine Or.inr (Or.inr (Or.inl ⟨ht, fun p2 hpp => ?_⟩))
              injection hpp with he
              rw [← he]
              exact hbad
            · intro _
              simp
          · simp only [hbad, if_false]
            by_cases hs : r.side = "BUY"
            · have hsb : (r.side == "BUY") = true := by simp [hs]
              simp only [hsb, if_true]
              by_cases hu : b.usdc < Matcher.orDefaultOne (some p) * r.quantity
              · simp only [hu, if_true]
                exact ⟨fun _ => Or.inr (Or.inr (Or.inr (Or.inl ⟨hs, b, rfl, hu⟩))), fun _ => by simp⟩
              · simp only [hu, if_false]
                constructor
                · intro h
                  exact absurd rfl h
                · rintro (h1 | h2 | ⟨h3a, h3b⟩ | ⟨h4a, b2, h4b, h4c⟩ | ⟨h5a, _⟩)
                  · exact Option.noConfusion h1
                  · exact h2.elim
                  · exact absurd (h3b p rfl) hbad
                  · injection h4b with he
                    rw [he] at hu
                    exact absurd h4c hu
                  · exact absurd hs h5a
            · have hsb : (r.side == "BUY") = false := by
                simp only [beq_eq_false_iff_ne, ne_eq]
                exact hs
              simp only [hsb, Bool.false_eq_true, if_false]
              by_cases htok : Matcher.tokensOf b r.outcome < r.quantity
              · simp only [htok, if_true]
                exact ⟨fun _ => Or.inr (Or.inr (Or.inr (Or.inr ⟨hs, b, rfl, htok⟩))), fun _ => by simp⟩
              · simp only [htok, if_false]
                constructor
                · intro h
                  exact absurd rfl h
                · rintro (h1 | h2 | ⟨h3a, h3b⟩ | ⟨h4a, _⟩ | ⟨h5a, b2, h5b, h5c⟩)
                  · exact Option.noConfusion h1
                  · exact h2.elim
                  · exact absurd (h3b p rfl) hbad
                  · exact absurd h4a hs
                  · injection h5b with he
                    rw [he] at htok
                    exact absurd h5c htok
      · have htb : (r.type == "LIMIT") = false := by
          simp only [beq_eq_false_iff_ne, ne_eq]
          exact ht
        simp only [htb, Bool.false_eq_true, if_false]
        by_cases hs : r.side = "BUY"
        · have hsb : (r.side == "BUY") = true := by simp [hs]
          simp only [hsb, if_true]
          by_cases hu : b.usdc < Matcher.orDefaultOne r.price * r.quantity
          · simp only [hu, if_true]
            exact ⟨fun _ => Or.inr (Or.inr (Or.inr (Or.inl ⟨hs, b, rfl, hu⟩))), fun _ => by simp⟩
          · simp only [hu, if_false]
            constructor
            · intro h
              exact absurd rfl h
            · rintro (h1 | h2 | ⟨h3a, h3b⟩ | ⟨h4a, b2, h4b, h4c⟩ | ⟨h5a, _⟩)
              · exact Option.noConfusion h1
              · exact h2.elim
              · exact absurd h3a ht
              · injection h4b with he
                rw [he] at hu
                exact absurd h4c hu
              · exact absurd hs h5a
        · have hsb : (r.side == "BUY") = false := by
            simp only [beq_eq_false_iff_ne, ne_eq]
            exact hs
          simp only [hsb, Bool.false_eq_true, if_false]
          by_cases htok : Matcher.tokensOf b r.outcome < r.quantity
          · simp only [htok, if_true]
            exact ⟨fun _ => Or.inr (Or.inr (Or.inr (Or.inr ⟨hs, b, rfl, htok⟩))), fun _ => by simp⟩
          · simp only [htok, if_false]
            constructor
            · intro h
              exact absurd rfl h
            · rintro (h1 | h2 | ⟨h3a, h3b⟩ | ⟨h4a, _⟩ | ⟨h5a, b2, h5b, h5c⟩)
              · exact Option.noConfusion h1
              · exact h2.elim
              · exact absurd h3a ht
              · exact absurd h4a hs
              · injection h5b with he
                rw [he] at htok
                exact absurd h5c htok

theorem processOrder_of_validation_error (ids : ℕ → String) (now : ℤ)
    (st : Matcher.PredictionMarketState) (r : Matcher.OrderRequest)
    (e : Matcher.ValidationError) (hv : Matcher.validateRequest st r = some e) :
    Matcher.processOrder ids now st r =
      { success := false, error := some e, order := none, fills := [], newState := st } := by
  unfold Matcher.processOrder
  rw [hv]

theorem processOrder_success_of_validation_ok (ids : ℕ → String) (now : ℤ)
    (st : Matcher.PredictionMarketState) (r : Matcher.OrderRequest)
    (hv : Matcher.validateRequest st r = none) :
    (Matcher.processOrder ids now st r).success = true := by
  unfold Matcher.processOrder
  rw [hv]

/-- C5: `processOrder` fails exactly on the enumerated validation conditions —
no balance record for the requesting user, non-positive quantity, a limit
order whose price is missing or outside the exclusive interval (0,1), a buyer
whose cash is below `price×quantity` (worst-case price 1 for market buys, via
`request.price || 1`), or a non-buyer lacking the outcome tokens being sold —
and every such failure returns an error with no fills and the input state
returned unchanged. -/
theorem processOrderRejectsExactlyInvalid (ids : ℕ → String) (now : ℤ)
    (st : Matcher.PredictionMarketState) (r : Matcher.OrderRequest) :
    ((Matcher.processOrder ids now st r).success = false ↔
      (Matcher.findEntry st.balances r.userId = none ∨
       r.quantity ≤ 0 ∨
       (r.type = "LIMIT" ∧ ∀ p, r.price = some p → (p ≤ 0 ∨ 1 ≤ p)) ∨
       (r.side = "BUY" ∧ ∃ b, Matcher.findEntry st.balances r.userId = some b ∧
          b.usdc < Matcher.orDefaultOne r.price * r.quantity) ∨
       (r.side ≠ "BUY" ∧ ∃ b, Matcher.findEntry st.balances r.userId = some b ∧
          Matcher.tokensOf b r.outcome < r.quantity))) ∧
    ((Matcher.processOrder ids now st r).success = false →
       (Matcher.processOrder ids now st r).error.isSome ∧
       (Matcher.processOrder ids now st r).fills = [] ∧
       (Matcher.processOrder ids now st r).newState = st) := by
  have hiff := validateRequest_ne_none_iff st r
  constructor
  · constructor
    · intro hfail
      refine hiff.mp ?_
      intro hnone
      have := processOrder_success_of_validation_ok ids now st r hnone
      rw [this] at hfail
      exact Bool.noConfusion hfail
    · intro hdisj
      have hne := hiff.mpr hdisj
      cases hv : Matcher.validateRequest st r with
      | none => exact absurd hv hne
      | some e =>
        rw [processOrder_of_validation_error ids now st r e hv]
  · intro hfail
    cases hv : Matcher.validateRequest st r with
    | none =>
      have := processOrder_success_of_validation_ok ids now st r hv
      rw [this] at hfail
      exact Bool.noConfusion hfail
    | some e =>
      rw [processOrder_of_validation_error ids now st r e hv]
      exact ⟨rfl, rfl, rfl⟩

theorem processOrderRejectsExactlyInvalid_witness :
    (Matcher.processOrder (fun _ => "t") 1 c5State c5Req).success = false ∧
    (Matcher.processOrder (fun _ => "t") 1 c5State c5Req).fills = [] ∧
    (Matcher.processOrder (fun _ => "t") 1 c5State c5Req).newState = c5State := by
  have hfail : (Matcher.processOrder (fun _ => "t") 1 c5State c5Req).success = false :=
    (processOrderRejectsExactlyInvalid (fun _ => "t") 1 c5State c5Req).1.mpr
      (Or.inr (Or.inr (Or.inr (Or.inl
        ⟨rfl, { usdc := 1, yes := 0, no := 0 }, rfl, by with_unfolding_all decide⟩))))
  have hrest := (processOrderRejectsExactlyInvalid (fun _ => "t") 1 c5State c5Req).2 hfail
  exact ⟨hfail, hrest.2.1, hrest.2.2⟩

theorem totalBy_setEntry (f : Matcher.UserBalance → ℚ)
    (bal : List (String × Matcher.UserBalance)) (k : String)
    (v w : Matcher.UserBalance) (hw : Matcher.findEntry bal k = some w) :
    totalBy f (Matcher.setEntry bal k v) = totalBy f bal + f v - f w := by
  induction bal with
  | nil => simp [Matcher.findEntry] at hw
  | cons hd tl ih =>
    obtain ⟨k1, v1⟩ := hd
    by_cases h1 : k1 = k
    · subst h1
      simp only [Matcher.findEntry, beq_self_eq_true, if_true] at hw
      injection hw with hw1
      simp only [Matcher.setEntry, beq_self_eq_true, if_true, totalBy, List.map_cons,
        List.sum_cons, hw1]
      ring
    · have h1b : (k1 == k) = false := by
        simp only [beq_eq_false_iff_ne, ne_eq]
        exact h1
      simp only [Matcher.findEntry, h1b, Bool.false_eq_true, if_false] at hw
      simp only [Matcher.setEntry, h1b, Bool.false_eq_true, if_false, totalBy,
        List.map_cons, List.sum_cons]
      have := ih hw
      simp only [totalBy] at this
      rw [this]
      ring

theorem addTok_usdc (b : Matcher.UserBalance) (o : String) (q : ℚ) :
    (Matcher.addTok b o q).usdc = b.usdc := by
  unfold Matcher.addTok
  split <;> rfl

theorem addTok_yes (b : Matcher.UserBalance) (o : String) (q : ℚ) :
    (Matcher.addTok b o q).yes = if (o == "YES") = true then b.yes + q else b.yes := by
  unfold Matcher.addTok
  split <;> simp_all

theorem addTok_no (b : Matcher.UserBalance) (o : String) (q : ℚ) :
    (Matcher.addTok b o q).no = if (o == "YES") = true then b.no else b.no + q := by
  unfold Matcher.addTok
  split <;> simp_all

theorem findEntry_updateBalancesForFill_isSome
    (bal : List (String × Matcher.UserBalance)) (t m : Matcher.Order)
    (fill : Matcher.Fill) (u : String) (h : (Matcher.findEntry bal u).isSome) :
    (Matcher.findEntry (Matcher.updateBalancesForFill bal t m fill) u).isSome := by
  unfold Matcher.updateBalancesForFill
  exact isSome_findEntry_setEntry _ _ _ _ (isSome_findEntry_setEntry _ _ _ _ h)

theorem totalBy_setEntry_setEntry (f : Matcher.UserBalance → ℚ)
    (bal : List (String × Matcher.UserBalance)) (t m : String)
    (v1 v2 tb mb : Matcher.UserBalance)
    (htb : Matcher.findEntry bal t = some tb)
    (hmb : Matcher.findEntry bal m = some mb) (hne : m ≠ t) :
    totalBy f (Matcher.setEntry (Matcher.setEntry bal t v1) m v2)
      = totalBy f bal + f v1 - f tb + f v2 - f mb := by
  rw [totalBy_setEntry f _ m v2 mb (by rw [findEntry_setEntry_ne _ _ _ _ hne]; exact hmb),
      totalBy_setEntry f _ t v1 tb htb]

theorem updateBalancesForFill_conserves
    (bal : List (String × Matcher.UserBalance)) (t m : Matcher.Order)
    (fill : Matcher.Fill) (hne : t.userId ≠ m.userId)
    (ht : (Matcher.findEntry bal t.userId).isSome)
    (hm : (Matcher.findEntry bal m.userId).isSome) :
    totalBy (fun b => b.usdc) (Matcher.updateBalancesForFill bal t m fill)
      = totalBy (fun b => b.usdc) bal ∧
    totalBy (fun b => b.yes) (Matcher.updateBalancesForFill bal t m fill)
      = totalBy (fun b => b.yes) bal ∧
    totalBy (fun b => b.no) (Matcher.updateBalancesForFill bal t m fill)
      = totalBy (fun b => b.no) bal := by
  obtain ⟨tb, htb⟩ := Option.isSome_iff_exists.mp ht
  obtain ⟨mb, hmb⟩ := Option.isSome_iff_exists.mp hm
  have hms : m.userId ≠ t.userId := fun hh => hne hh.symm
  by_cases hside : (t.side == "BUY") = true
  · have hrw : Matcher.updateBalancesForFill bal t m fill =
        Matcher.setEntry (Matcher.setEntry bal t.userId
            (Matcher.addTok { tb with usdc := tb.usdc - fill.price * fill.quantity }
              fill.outcome fill.quantity))
          m.userId
          (Matcher.addTok { mb with usdc := mb.usdc + fill.price * fill.quantity }
            fill.outcome (-fill.quantity)) := by
      unfold Matcher.updateBalancesForFill
      rw [htb, hmb]
      simp only [Option.getD_some, hside, if_true]
    rw [hrw]
    refine ⟨?_, ?_, ?_⟩
    · rw [totalBy_setEntry_setEntry _ bal _ _ _ _ tb mb htb hmb hms]
      simp only [addTok_usdc]
      ring
    · rw [totalBy_setEntry_setEntry _ bal _ _ _ _ tb mb htb hmb hms]
      by_cases ho : (fill.outcome == "YES") = true <;>
        simp only [addTok_yes, ho, if_true, Bool.false_eq_true, if_false] <;> ring
    · rw [totalBy_setEntry_setEntry _ bal _ _ _ _ tb mb htb hmb hms]
      by_cases ho : (fill.outcome == "YES") = true <;>
        simp only [addTok_no, ho, if_true, Bool.false_eq_true, if_false] <;> ring
  · have hrw : Matcher.updateBalancesForFill bal t m fill =
        Matcher.setEntry (Matcher.setEntry bal t.userId
            (Matcher.addTok { tb with usdc := tb.usdc + fill.price * fill.quantity }
              fill.outcome (-fill.quantity)))
          m.userId
          (Matcher.addTok { mb with usdc := mb.usdc - fill.price * fill.quantity }
            fill.outcome fill.quantity) := by
      unfold Matcher.updateBalancesForFill
      rw [htb, hmb]
      simp only [Option.getD_some, hside, Bool.false_eq_true, if_false]
    rw [hrw]
    refine ⟨?_, ?_, ?_⟩
    · rw [totalBy_setEntry_setEntry _ bal _ _ _ _ tb mb htb hmb hms]
      simp only [addTok_usdc]
      ring
    · rw [totalBy_setEntry_setEntry _ bal _ _ _ _ tb mb htb hmb hms]
      by_cases ho : (fill.outcome == "YES") = true <;>
        simp only [addTok_yes, ho, if_true, Bool.false_eq_true, if_false] <;> ring
    · rw [totalBy_setEntry_setEntry _ bal _ _ _ _ tb mb htb hmb hms]
      by_cases ho : (fill.outcome == "YES") = true <;>
        simp only [addTok_no, ho, if_true, Bool.false_eq_true, if_false] <;> ring

theorem matchLoop_nil (ids : ℕ → String) (now : ℤ) (taker : Matcher.Order)
    (rem : ℚ) (ob : Matcher.Orderbook) (bal : List (String × Matcher.UserBalance)) (k : ℕ) :
    Matcher.matchLoop ids now taker [] rem ob bal k =
      { fills := [], remainingQty := rem, orderbook := ob, balances := bal,
        completed := [] } := rfl

theorem matchLoop_stop (ids : ℕ → String) (now : ℤ) (taker m : Matcher.Order)
    (rest : List Matcher.Order) (rem : ℚ) (ob : Matcher.Orderbook)
    (bal : List (String × Matcher.UserBalance)) (k : ℕ)
    (h : rem ≤ 0 ∨ Matcher.canMatch taker m = false) :
    Matcher.matchLoop ids now taker (m :: rest) rem ob bal k =
      { fills := [], remainingQty := rem, orderbook := ob, balances := bal,
        completed := [] } := by
  by_cases h1 : rem ≤ 0
  · simp only [Matcher.matchLoop]
    rw [if_pos h1]
  · rcases h with h | h
    · exact absurd h h1
    · simp only [Matcher.matchLoop]
      rw [if_neg h1, if_pos (by simp [h])]

theorem matchLoop_cons (ids : ℕ → String) (now : ℤ) (taker m : Matcher.Order)
    (rest : List Matcher.Order) (rem : ℚ) (ob : Matcher.Orderbook)
    (bal : List (String × Matcher.UserBalance)) (k : ℕ)
    (h1 : ¬ rem ≤ 0) (h2 : Matcher.canMatch taker m = true) :
    Matcher.matchLoop ids now taker (m :: rest) rem ob bal k =
      { fills := Matcher.matchFill ids now taker m rem k ::
          (Matcher.matchLoop ids now taker rest (rem - Matcher.mathMin rem m.remainingQuantity)
            (Matcher.matchStepBook taker m rem ob)
            (Matcher.updateBalancesForFill bal taker m (Matcher.matchFill ids now taker m rem k))
            (k + 1)).fills
        remainingQty :=
          (Matcher.matchLoop ids now taker rest (rem - Matcher.mathMin rem m.remainingQuantity)
            (Matcher.matchStepBook taker m rem ob)
            (Matcher.updateBalancesForFill bal taker m (Matcher.matchFill ids now taker m rem k))
            (k + 1)).remainingQty
        orderbook :=
          (Matcher.matchLoop ids now taker rest (rem - Matcher.mathMin rem m.remainingQuantity)
            (Matcher.matchStepBook taker m rem ob)
            (Matcher.updateBalancesForFill bal taker m (Matcher.matchFill ids now taker m rem k))
            (k + 1)).orderbook
        balances :=
          (Matcher.matchLoop ids now taker rest (rem - Matcher.mathMin rem m.remainingQuantity)
            (Matcher.matchStepBook taker m rem ob)
            (Matcher.updateBalancesForFill bal taker m (Matcher.matchFill ids now taker m rem k))
            (k + 1)).balances
        completed :=
          (if m.remainingQuantity - Matcher.mathMin rem m.remainingQuantity = 0
           then [Matcher.makerAfterFill m rem] else []) ++
          (Matcher.matchLoop ids now taker rest (rem - Matcher.mathMin rem m.remainingQuantity)
            (Matcher.matchStepBook taker m rem ob)
            (Matcher.updateBalancesForFill bal taker m (Matcher.matchFill ids now taker m rem k))
            (k + 1)).completed } := by
  simp only [Matcher.matchLoop]
  rw [if_neg h1, if_neg (by simp [h2])]

theorem matchLoop_conserves (ids : ℕ → String) (now : ℤ) (taker : Matcher.Order)
    (makers : List Matcher.Order) :
    ∀ (rem : ℚ) (ob : Matcher.Orderbook) (bal : List (String × Matcher.UserBalance)) (k : ℕ),
      (Matcher.findEntry bal taker.userId).isSome →
      (∀ m ∈ makers, m.userId ≠ taker.userId ∧ (Matcher.findEntry bal m.userId).isSome) →
      totalBy (fun b => b.usdc) (Matcher.matchLoop ids now taker makers rem ob bal k).balances
        = totalBy (fun b => b.usdc) bal ∧
      totalBy (fun b => b.yes) (Matcher.matchLoop ids now taker makers rem ob bal k).balances
        = totalBy (fun b => b.yes) bal ∧
      totalBy (fun b => b.no) (Matcher.matchLoop ids now taker makers rem ob bal k).balances
        = totalBy (fun b => b.no) bal := by
  induction makers with
  | nil =>
    intro rem ob bal k ht hmk
    rw [matchLoop_nil]
    exact ⟨rfl, rfl, rfl⟩
  | cons m rest ih =>
    intro rem ob bal k ht hmk
    by_cases h1 : rem ≤ 0
    · rw [matchLoop_stop ids now taker m rest rem ob bal k (Or.inl h1)]
      exact ⟨rfl, rfl, rfl⟩
    · by_cases h2 : Matcher.canMatch taker m = true
      · rw [matchLoop_cons ids now taker m rest rem ob bal k h1 h2]
        have hmem := List.mem_cons_self m rest
        have hne : taker.userId ≠ m.userId := fun hh => (hmk m hmem).1 hh.symm
        have hupd := updateBalancesForFill_conserves bal taker m
          (Matcher.matchFill ids now taker m rem k) hne ht (hmk m hmem).2
        have ht1 := findEntry_updateBalancesForFill_isSome bal taker m
          (Matcher.matchFill ids now taker m rem k) taker.userId ht
        have hmk1 : ∀ m2 ∈ rest, m2.userId ≠ taker.userId ∧
            (Matcher.findEntry (Matcher.updateBalancesForFill bal taker m
              (Matcher.matchFill ids now taker m rem k)) m2.userId).isSome :=
          fun m2 hm2 => ⟨(hmk m2 (List.mem_cons_of_mem m hm2)).1,
            findEntry_updateBalancesForFill_isSome bal taker m
              (Matcher.matchFill ids now taker m rem k) m2.userId
              (hmk m2 (List.mem_cons_of_mem m hm2)).2⟩
        have hih := ih (rem - Matcher.mathMin rem m.remainingQuantity)
          (Matcher.matchStepBook taker m rem ob) _ (k + 1) ht1 hmk1
        exact ⟨hih.1.trans hupd.1, hih.2.1.trans hupd.2.1, hih.2.2.trans hupd.2.2⟩
      · rw [matchLoop_stop ids now taker m rest rem ob bal k (Or.inr (by simpa using h2))]
        exact ⟨rfl, rfl, rfl⟩

theorem validateRequest_none_user_isSome (st : Matcher.PredictionMarketState)
    (r : Matcher.OrderRequest) (hv : Matcher.validateRequest st r = none) :
    (Matcher.findEntry st.balances r.userId).isSome := by
  unfold Matcher.validateRequest at hv
  cases hf : Matcher.findEntry st.balances r.userId with
  | none =>
    rw [hf] at hv
    exact Option.noConfusion hv
  | some b => simp

theorem processOrder_balances_of_ok (ids : ℕ → String) (now : ℤ)
    (st : Matcher.PredictionMarketState) (r : Matcher.OrderRequest)
    (hv : Matcher.validateRequest st r = none) :
    (Matcher.processOrder ids now st r).newState.balances =
      (Matcher.matchLoop ids now (Matcher.requestOrder ids now r)
        (Matcher.getMatchableOrders st.orderbook (Matcher.requestOrder ids now r))
        r.quantity st.orderbook st.balances 1).balances := by
  unfold Matcher.processOrder
  rw [hv]
  rfl

/-- C1 (corrected): each fill moves the same cash from one party to the other
and the same token quantity back, PROVIDED taker and maker are distinct users
with balance records: then `updateBalancesForFill` preserves the total usdc,
yes and no balances, and a `processOrder` call on a state none of whose
matched-side resting orders belongs to the requesting user preserves all
three totals.  (When the taker matches an order of their own, the maker-side
balance write overwrites the taker-side write and the totals change — see the
counterexample.) -/
theorem fillAndMatchingConserveTotals (bal : List (String × Matcher.UserBalance))
    (t m : Matcher.Order) (fill : Matcher.Fill)
    (st : Matcher.PredictionMarketState) (r : Matcher.OrderRequest)
    (ids : ℕ → String) (now : ℤ) :
    ((t.userId ≠ m.userId → (Matcher.findEntry bal t.userId).isSome →
       (Matcher.findEntry bal m.userId).isSome →
       totalBy (fun b => b.usdc) (Matcher.updateBalancesForFill bal t m fill)
           = totalBy (fun b => b.usdc) bal ∧
       totalBy (fun b => b.yes) (Matcher.updateBalancesForFill bal t m fill)
           = totalBy (fun b => b.yes) bal ∧
       totalBy (fun b => b.no) (Matcher.updateBalancesForFill bal t m fill)
           = totalBy (fun b => b.no) bal)) ∧
    ((∀ mk ∈ Matcher.takerSideList st.orderbook r.side r.outcome,
        mk.userId ≠ r.userId ∧ (Matcher.findEntry st.balances mk.userId).isSome) →
       totalBy (fun b => b.usdc) (Matcher.processOrder ids now st r).newState.balances
           = totalBy (fun b => b.usdc) st.balances ∧
       totalBy (fun b => b.yes) (Matcher.processOrder ids now st r).newState.balances
           = totalBy (fun b => b.yes) st.balances ∧
       totalBy (fun b => b.no) (Matcher.processOrder ids now st r).newState.balances
           = totalBy (fun b => b.no) st.balances) := by
  constructor
  · intro hne ht hm
    exact updateBalancesForFill_conserves bal t m fill hne ht hm
  · intro hmk
    cases hv : Matcher.validateRequest st r with
    | some e =>
      rw [processOrder_of_validation_error ids now st r e hv]
      exact ⟨rfl, rfl, rfl⟩
    | none =>
      rw [processOrder_balances_of_ok ids now st r hv]
      have ht : (Matcher.findEntry st.balances
          (Matcher.requestOrder ids now r).userId).isSome :=
        validateRequest_none_user_isSome st r hv
      have hmk2 : ∀ mk ∈ Matcher.getMatchableOrders st.orderbook
          (Matcher.requestOrder ids now r),
          mk.userId ≠ (Matcher.requestOrder ids now r).userId ∧
          (Matcher.findEntry st.balances mk.userId).isSome := by
        intro mk hmkmem
        have : mk ∈ Matcher.takerSideList st.orderbook r.side r.outcome :=
          (List.perm_insertionSort
            (Matcher.matchRel (Matcher.requestOrder ids now r).side) _).mem_iff.mp hmkmem
        exact hmk mk this
      exact matchLoop_conserves ids now (Matcher.requestOrder ids now r) _
        r.quantity st.orderbook st.balances 1 ht hmk2

/-- C1, counterexample to the claim as stated: when a user sells into their
own resting bid, `processOrder` changes both the total usdc and the total
yes-token balance — the maker-side write to the shared balance key discards
the taker-side update. -/
theorem selfMatchBreaksConservation :
    totalBy (fun b => b.usdc) (Matcher.processOrder cexIds 5 c1State c1Req).newState.balances
        ≠ totalBy (fun b => b.usdc) c1State.balances ∧
    totalBy (fun b => b.yes) (Matcher.processOrder cexIds 5 c1State c1Req).newState.balances
        ≠ totalBy (fun b => b.yes) c1State.balances := by
  with_unfolding_all decide

theorem fillAndMatchingConserveTotals_witness :
    totalBy (fun b => b.usdc) (Matcher.processOrder cexIds 5 c1wState c1wReq).newState.balances
        = totalBy (fun b => b.usdc) c1wState.balances ∧
    totalBy (fun b => b.yes) (Matcher.processOrder cexIds 5 c1wState c1wReq).newState.balances
        = totalBy (fun b => b.yes) c1wState.balances ∧
    totalBy (fun b => b.no) (Matcher.processOrder cexIds 5 c1wState c1wReq).newState.balances
        = totalBy (fun b => b.no) c1wState.balances :=
  (fillAndMatchingConserveTotals c1wState.balances c1Maker c1Maker
    { id := "f", makerOrderId := "m1", takerOrderId := "t", price := 1/2, quantity := 1,
      timestamp := 5, outcome := "YES" }
    c1wState c1wReq cexIds 5).2 (by with_unfolding_all decide)

/-- C4 (code bug): starting from all-non-negative balances, three accepted
`processOrder` calls leave `A` at −4/5 USDC: `validateRequest` checks only the
taker's current balance, so two resting buys each individually affordable are
both admitted and both fill, driving the balance negative. -/
theorem noReservationDrivesBalanceNegative :
    allBalancesNonneg c4State0 = true ∧
    (Matcher.processOrder (fun _ => "o1") 1 c4State0 c4Req1).success = true ∧
    (Matcher.processOrder (fun _ => "o2") 2 c4State1 c4Req1).success = true ∧
    (Matcher.processOrder (fun _ => "t3") 3 c4State2 c4Req3).success = true ∧
    Matcher.findEntry c4State3.balances "A" = some { usdc := -(4/5), yes := 2, no := 0 } ∧
    allBalancesNonneg c4State3 = false := by
  with_unfolding_all decide

theorem askRelb_iff (a b : Matcher.Order) :
    Matcher.askRelb a b = true ↔
      a.price < b.price ∨ (a.price = b.price ∧ a.timestamp ≤ b.timestamp) := by
  simp [Matcher.askRelb]

theorem bidRelb_iff (a b : Matcher.Order) :
    Matcher.bidRelb a b = true ↔
      b.price < a.price ∨ (a.price = b.price ∧ a.timestamp ≤ b.timestamp) := by
  simp [Matcher.bidRelb]

instance matchRelTotal (side : String) : IsTotal Matcher.Order (Matcher.matchRel side) := by
  constructor
  intro a b
  unfold Matcher.matchRel
  by_cases h : (side == "BUY") = true
  · simp only [h, if_true, askRelb_iff]
    rcases lt_trichotomy a.price b.price with hlt | heq | hgt
    · exact Or.inl (Or.inl hlt)
    · rcases le_total a.timestamp b.timestamp with htle | htle
      · exact Or.inl (Or.inr ⟨heq, htle⟩)
      · exact Or.inr (Or.inr ⟨heq.symm, htle⟩)
    · exact Or.inr (Or.inl hgt)
  · simp only [h, Bool.false_eq_true, if_false, bidRelb_iff]
    rcases lt_trichotomy a.price b.price with hlt | heq | hgt
    · exact Or.inr (Or.inl hlt)
    · rcases le_total a.timestamp b.timestamp with htle | htle
      · exact Or.inl (Or.inr ⟨heq, htle⟩)
      · exact Or.inr (Or.inr ⟨heq.symm, htle⟩)
    · exact Or.inl (Or.inl hgt)

instance matchRelTrans (side : String) : IsTrans Matcher.Order (Matcher.matchRel side) := by
  constructor
  intro a b c hab hbc
  unfold Matcher.matchRel at *
  by_cases h : (side == "BUY") = true
  · rw [h] at hab hbc ⊢
    simp only [if_true, askRelb_iff] at hab hbc ⊢
    rcases hab with hab | ⟨hab1, hab2⟩
    · rcases hbc with hbc | ⟨hbc1, hbc2⟩
      · exact Or.inl (hab.trans hbc)
      · exact Or.inl (hbc1 ▸ hab)
    · rcases hbc with hbc | ⟨hbc1, hbc2⟩
      · exact Or.inl (hab1 ▸ hbc)
      · exact Or.inr ⟨hab1.trans hbc1, hab2.trans hbc2⟩
  · have hf : (side == "BUY") = false := by
      cases hsb : (side == "BUY") with
      | false => rfl
      | true => exact absurd hsb h
    rw [hf] at hab hbc ⊢
    simp only [Bool.false_eq_true, if_false, bidRelb_iff] at hab hbc ⊢
    rcases hab with hab | ⟨hab1, hab2⟩
    · rcases hbc with hbc | ⟨hbc1, hbc2⟩
      · exact Or.inl (hbc.trans hab)
      · exact Or.inl (hbc1 ▸ hab)
    · rcases hbc with hbc | ⟨hbc1, hbc2⟩
      · exact Or.inl (hbc.trans_le hab1.ge)
      · exact Or.inr ⟨hab1.trans hbc1, hab2.trans hbc2⟩

theorem matchLoop_fills_spec (ids : ℕ → String) (now : ℤ) (taker : Matcher.Order)
    (makers : List Matcher.Order) :
    ∀ (rem : ℚ) (ob : Matcher.Orderbook) (bal : List (String × Matcher.UserBalance)) (k : ℕ),
      (Matcher.matchLoop ids now taker makers rem ob bal k).fills.map
          (fun f => (f.makerOrderId, f.price, f.quantity))
        = fillsSpec taker rem makers := by
  induction makers with
  | nil =>
    intro rem ob bal k
    rw [matchLoop_nil]
    rfl
  | cons m rest ih =>
    intro rem ob bal k
    by_cases h1 : rem ≤ 0
    · rw [matchLoop_stop ids now taker m rest rem ob bal k (Or.inl h1)]
      have hcond : ¬(0 < rem ∧ Matcher.canMatch taker m = true) :=
        fun hc => absurd hc.1 (not_lt.mpr h1)
      simp only [fillsSpec, hcond, if_false, List.map_nil]
    · by_cases h2 : Matcher.canMatch taker m = true
      · rw [matchLoop_cons ids now taker m rest rem ob bal k h1 h2]
        have hcond : 0 < rem ∧ Matcher.canMatch taker m = true := ⟨not_le.mp h1, h2⟩
        simp only [fillsSpec, hcond, if_true, List.map_cons]
        rw [ih]
        simp only [Matcher.matchFill, mathMin_eq_min]
        simp
      · rw [matchLoop_stop ids now taker m rest rem ob bal k (Or.inr (by simpa using h2))]
        have hcond : ¬(0 < rem ∧ Matcher.canMatch taker m = true) := fun hc => h2 hc.2
        simp only [fillsSpec, hcond, if_false, List.map_nil]

theorem makerAfterFill_id (m : Matcher.Order) (rem : ℚ) :
    (Matcher.makerAfterFill m rem).id = m.id := by
  unfold Matcher.makerAfterFill
  split <;> rfl

theorem makerAfterFill_full (m : Matcher.Order) (rem : ℚ)
    (h : m.remainingQuantity - Matcher.mathMin rem m.remainingQuantity = 0) :
    Matcher.makerAfterFill m rem =
      { m with remainingQuantity := 0, status := "FILLED" } := by
  unfold Matcher.makerAfterFill
  rw [if_pos h]

theorem matchLoop_completed_filled (ids : ℕ → String) (now : ℤ) (taker : Matcher.Order)
    (makers : List Matcher.Order) :
    ∀ (rem : ℚ) (ob : Matcher.Orderbook) (bal : List (String × Matcher.UserBalance)) (k : ℕ),
      ∀ m2 ∈ (Matcher.matchLoop ids now taker makers rem ob bal k).completed,
        m2.status = "FILLED" ∧ m2.remainingQuantity = 0 := by
  induction makers with
  | nil =>
    intro rem ob bal k m2 hm2
    rw [matchLoop_nil] at hm2
    exact absurd hm2 (List.not_mem_nil m2)
  | cons m rest ih =>
    intro rem ob bal k m2 hm2
    by_cases h1 : rem ≤ 0
    · rw [matchLoop_stop ids now taker m rest rem ob bal k (Or.inl h1)] at hm2
      exact absurd hm2 (List.not_mem_nil m2)
    · by_cases h2 : Matcher.canMatch taker m = true
      · rw [matchLoop_cons ids now taker m rest rem ob bal k h1 h2] at hm2
        simp only [List.mem_append] at hm2
        rcases hm2 with hm2 | hm2
        · by_cases hfull : m.remainingQuantity - Matcher.mathMin rem m.remainingQuantity = 0
          · rw [if_pos hfull] at hm2
            rcases List.mem_singleton.mp hm2 with he
            rw [he, makerAfterFill_full m rem hfull]
            exact ⟨rfl, rfl⟩
          · rw [if_neg hfull] at hm2
            exact absurd hm2 (List.not_mem_nil m2)
        · exact ih _ _ _ _ m2 hm2
      · rw [matchLoop_stop ids now taker m rest rem ob bal k (Or.inr (by simpa using h2))] at hm2
        exact absurd hm2 (List.not_mem_nil m2)

theorem mem_takerSideList_label (ob : Matcher.Orderbook) (s w : String)
    (hWF : bookWF ob) (m : Matcher.Order)
    (hm : m ∈ Matcher.takerSideList ob s w) :
    (m.outcome, m.side) = sideLabel s w := by
  unfold Matcher.takerSideList at hm
  unfold sideLabel
  by_cases hs : (s == "BUY") = true <;> by_cases hw : (w == "YES") = true
  · simp only [hs, hw, if_true] at hm ⊢
    obtain ⟨h1, h2⟩ := hWF.1 m hm
    rw [h1, h2]
  · simp only [hs, hw, Bool.false_eq_true, if_true, if_false] at hm ⊢
    obtain ⟨h1, h2⟩ := hWF.2.2.1 m hm
    rw [h1, h2]
  · simp only [hs, hw, Bool.false_eq_true, if_true, if_false] at hm ⊢
    obtain ⟨h1, h2⟩ := hWF.2.1 m hm
    rw [h1, h2]
  · simp only [hs, hw, Bool.false_eq_true, if_false] at hm ⊢
    obtain ⟨h1, h2⟩ := hWF.2.2.2 m hm
    rw [h1, h2]

theorem takerSideList_setTakerSideList (ob : Matcher.Orderbook) (s w : String)
    (l : List Matcher.Order) :
    Matcher.takerSideList (Matcher.setTakerSideList ob s w l) s w = l := by
  unfold Matcher.takerSideList Matcher.setTakerSideList
  by_cases hs : (s == "BUY") = true <;> by_cases hw : (w == "YES") = true <;>
    simp [hs, hw]

theorem takerSideList_removeFromOrderbook_label (ob : Matcher.Orderbook)
    (s w : String) (m : Matcher.Order) (hlab : (m.outcome, m.side) = sideLabel s w) :
    Matcher.takerSideList (Matcher.removeFromOrderbook ob m) s w
      = (Matcher.takerSideList ob s w).filter (fun o => o.id != m.id) := by
  unfold sideLabel at hlab
  unfold Matcher.takerSideList Matcher.removeFromOrderbook
  by_cases hs : (s == "BUY") = true <;> by_cases hw : (w == "YES") = true <;>
    simp only [hs, hw, if_true, Bool.false_eq_true, if_false] at hlab ⊢ <;>
    (obtain ⟨h1, h2⟩ := Prod.mk.injEq .. ▸ hlab
     simp [h1, h2])

theorem takerSideList_removeFromOrderbook_cases (ob : Matcher.Orderbook)
    (s w : String) (m : Matcher.Order) :
    Matcher.takerSideList (Matcher.removeFromOrderbook ob m) s w
        = Matcher.takerSideList ob s w ∨
    Matcher.takerSideList (Matcher.removeFromOrderbook ob m) s w
        = (Matcher.takerSideList ob s w).filter (fun o => o.id != m.id) := by
  unfold Matcher.takerSideList Matcher.removeFromOrderbook
  by_cases hs : (s == "BUY") = true <;> by_cases hw : (w == "YES") = true <;>
    by_cases ho : (m.outcome == "YES") = true <;> by_cases hs2 : (m.side == "BUY") = true <;>
    simp [hs, hw, ho, hs2]

theorem takerSideList_matchStepBook_absent (taker m : Matcher.Order) (rem : ℚ)
    (ob : Matcher.Orderbook) (x : String)
    (h : ∀ o ∈ Matcher.takerSideList ob taker.side taker.outcome, o.id ≠ x) :
    ∀ o ∈ Matcher.takerSideList (Matcher.matchStepBook taker m rem ob)
        taker.side taker.outcome, o.id ≠ x := by
  intro o ho
  unfold Matcher.matchStepBook at ho
  have hmap : ∀ o2 ∈ (Matcher.takerSideList ob taker.side taker.outcome).map
      (fun o3 => if (o3.id == m.id) = true then Matcher.makerAfterFill m rem else o3),
      o2.id ≠ x := by
    intro o2 ho2
    obtain ⟨o3, ho3, he⟩ := List.mem_map.mp ho2
    by_cases hid : (o3.id == m.id) = true
    · rw [if_pos hid] at he
      rw [← he, makerAfterFill_id]
      rw [beq_iff_eq] at hid
      rw [← hid]
      exact h o3 ho3
    · rw [if_neg hid] at he
      rw [← he]
      exact h o3 ho3
  by_cases hfull : m.remainingQuantity - Matcher.mathMin rem m.remainingQuantity = 0
  · rw [if_pos hfull] at ho
    rcases takerSideList_removeFromOrderbook_cases
        (Matcher.setTakerSideList ob taker.side taker.outcome _)
        taker.side taker.outcome (Matcher.makerAfterFill m rem) with hcase | hcase
    · rw [hcase, takerSideList_setTakerSideList] at ho
      exact hmap o ho
    · rw [hcase, takerSideList_setTakerSideList] at ho
      exact hmap o (List.mem_of_mem_filter ho)
  · rw [if_neg hfull, takerSideList_setTakerSideList] at ho
    exact hmap o ho

theorem matchLoop_preserves_absent (ids : ℕ → String) (now : ℤ)
    (taker : Matcher.Order) (x : String) (makers : List Matcher.Order) :
    ∀ (rem : ℚ) (ob : Matcher.Orderbook) (bal : List (String × Matcher.UserBalance)) (k : ℕ),
      (∀ o ∈ Matcher.takerSideList ob taker.side taker.outcome, o.id ≠ x) →
      ∀ o ∈ Matcher.takerSideList
          (Matcher.matchLoop ids now taker makers rem ob bal k).orderbook
          taker.side taker.outcome, o.id ≠ x := by
  induction makers with
  | nil =>
    intro rem ob bal k h o ho
    rw [matchLoop_nil] at ho
    exact h o ho
  | cons m rest ih =>
    intro rem ob bal k h o ho
    by_cases h1 : rem ≤ 0
    · rw [matchLoop_stop ids now taker m rest rem ob bal k (Or.inl h1)] at ho
      exact h o ho
    · by_cases h2 : Matcher.canMatch taker m = true
      · rw [matchLoop_cons ids now taker m rest rem ob bal k h1 h2] at ho
        exact ih _ _ _ _ (takerSideList_matchStepBook_absent taker m rem ob x h) o ho
      · rw [matchLoop_stop ids now taker m rest rem ob bal k (Or.inr (by simpa using h2))] at ho
        exact h o ho

theorem makerAfterFill_outcome (m : Matcher.Order) (rem : ℚ) :
    (Matcher.makerAfterFill m rem).outcome = m.outcome := by
  unfold Matcher.makerAfterFill
  split <;> rfl

theorem makerAfterFill_side (m : Matcher.Order) (rem : ℚ) :
    (Matcher.makerAfterFill m rem).side = m.side := by
  unfold Matcher.makerAfterFill
  split <;> rfl

theorem matchStepBook_full_absent (taker m : Matcher.Order) (rem : ℚ)
    (ob : Matcher.Orderbook)
    (hfull : m.remainingQuantity - Matcher.mathMin rem m.remainingQuantity = 0)
    (hlab : (m.outcome, m.side) = sideLabel taker.side taker.outcome) :
    ∀ o ∈ Matcher.takerSideList (Matcher.matchStepBook taker m rem ob)
        taker.side taker.outcome, o.id ≠ m.id := by
  intro o ho
  unfold Matcher.matchStepBook at ho
  rw [if_pos hfull] at ho
  have hlabmu : ((Matcher.makerAfterFill m rem).outcome, (Matcher.makerAfterFill m rem).side)
      = sideLabel taker.side taker.outcome := by
    rw [makerAfterFill_outcome, makerAfterFill_side]
    exact hlab
  rw [takerSideList_removeFromOrderbook_label _ _ _ _ hlabmu,
      takerSideList_setTakerSideList] at ho
  have := List.of_mem_filter ho
  rw [bne_iff_ne] at this
  rw [makerAfterFill_id] at this
  exact this

theorem matchLoop_completed_absent (ids : ℕ → String) (now : ℤ)
    (taker : Matcher.Order) (makers : List Matcher.Order) :
    ∀ (rem : ℚ) (ob : Matcher.Orderbook) (bal : List (String × Matcher.UserBalance)) (k : ℕ),
      (∀ m ∈ makers, (m.outcome, m.side) = sideLabel taker.side taker.outcome) →
      ∀ m2 ∈ (Matcher.matchLoop ids now taker makers rem ob bal k).completed,
        ∀ o ∈ Matcher.takerSideList
            (Matcher.matchLoop ids now taker makers rem ob bal k).orderbook
            taker.side taker.outcome, o.id ≠ m2.id := by
  induction makers with
  | nil =>
    intro rem ob bal k hlab m2 hm2
    rw [matchLoop_nil] at hm2
    exact absurd hm2 (List.not_mem_nil m2)
  | cons m rest ih =>
    intro rem ob bal k hlab m2 hm2 o ho
    by_cases h1 : rem ≤ 0
    · rw [matchLoop_stop ids now taker m rest rem ob bal k (Or.inl h1)] at hm2
      exact absurd hm2 (List.not_mem_nil m2)
    · by_cases h2 : Matcher.canMatch taker m = true
      · rw [matchLoop_cons ids now taker m rest rem ob bal k h1 h2] at hm2 ho
        simp only [List.mem_append] at hm2
        rcases hm2 with hm2 | hm2
        · by_cases hfull : m.remainingQuantity - Matcher.mathMin rem m.remainingQuantity = 0
          · rw [if_pos hfull] at hm2
            rcases List.mem_singleton.mp hm2 with he
            rw [he, makerAfterFill_id]
            have habs := matchStepBook_full_absent taker m rem ob hfull
              (hlab m (List.mem_cons_self m rest))
            exact matchLoop_preserves_absent ids now taker m.id rest _ _ _ _ habs o ho
          · rw [if_neg hfull] at hm2
            exact absurd hm2 (List.not_mem_nil m2)
        · exact ih _ _ _ _ (fun m3 hm3 => hlab m3 (List.mem_cons_of_mem m hm3)) m2 hm2 o ho
      · rw [matchLoop_stop ids now taker m rest rem ob bal k (Or.inr (by simpa using h2))] at hm2
        exact absurd hm2 (List.not_mem_nil m2)

/-- C3: `getMatchableOrders` is a permutation of the opposing book side sorted
by price-time priority (best price first — ascending asks for a buy, descending
bids for a sell — earlier timestamp breaking price ties); the matching loop's
fills are exactly the reference walk over that sorted list (each fill at the
maker's price with quantity `min(takerRemaining, makerRemaining)`, stopping
when the taker is exhausted or the best price no longer matches); a maker whose
remaining quantity reaches zero is marked `FILLED`, and (in a well-formed book)
its id no longer appears on the matched side of the resulting book. -/
theorem priceTimePriorityMatching (ob : Matcher.Orderbook) (o : Matcher.Order)
    (st : Matcher.PredictionMarketState) (ids : ℕ → String) (now : ℤ) :
    List.Perm (Matcher.getMatchableOrders ob o) (Matcher.takerSideList ob o.side o.outcome) ∧
    List.Sorted (Matcher.matchRel o.side) (Matcher.getMatchableOrders ob o) ∧
    ((Matcher.matchOrder ids now st o).fills.map (fun f => (f.makerOrderId, f.price, f.quantity))
        = fillsSpec o o.quantity (Matcher.getMatchableOrders st.orderbook o)) ∧
    (∀ m2 ∈ (Matcher.matchOrder ids now st o).completed,
        m2.status = "FILLED" ∧ m2.remainingQuantity = 0) ∧
    (bookWF st.orderbook →
        ∀ m2 ∈ (Matcher.matchOrder ids now st o).completed,
        ∀ o2 ∈ Matcher.takerSideList (Matcher.matchOrder ids now st o).updatedOrderbook
            o.side o.outcome, o2.id ≠ m2.id) := by
  refine ⟨List.perm_insertionSort _ _, List.sorted_insertionSort _ _, ?_, ?_, ?_⟩
  · exact matchLoop_fills_spec ids now o (Matcher.getMatchableOrders st.orderbook o)
      o.quantity st.orderbook st.balances 1
  · intro m2 hm2
    exact matchLoop_completed_filled ids now o (Matcher.getMatchableOrders st.orderbook o)
      o.quantity st.orderbook st.balances 1 m2 hm2
  · intro hWF m2 hm2 o2 ho2
    have hlab : ∀ m ∈ Matcher.getMatchableOrders st.orderbook o,
        (m.outcome, m.side) = sideLabel o.side o.outcome := by
      intro m hm
      exact mem_takerSideList_label st.orderbook o.side o.outcome hWF m
        ((List.perm_insertionSort (Matcher.matchRel o.side) _).mem_iff.mp hm)
    exact matchLoop_completed_absent ids now o (Matcher.getMatchableOrders st.orderbook o)
      o.quantity st.orderbook st.balances 1 hlab m2 hm2 o2 ho2

theorem priceTimePriorityMatching_witness :
    ((Matcher.matchOrder cexIds 9 c3State c3Taker).fills.map
        (fun f => (f.makerOrderId, f.price, f.quantity))
      = [("a2", 2/5, 1), ("a1", 2/5, 1)]) ∧
    ((Matcher.matchOrder cexIds 9 c3State c3Taker).completed.map
        (fun m => (m.id, m.status, m.remainingQuantity))
      = [("a2", "FILLED", 0), ("a1", "FILLED", 0)]) ∧
    ((Matcher.matchOrder cexIds 9 c3State c3Taker).updatedOrderbook.yesAsks.map
        (fun o2 => o2.id) = ["a3"]) := by
  have h := (priceTimePriorityMatching c3State.orderbook c3Taker c3State cexIds 9).2.2.1
  exact ⟨h.trans (by with_unfolding_all decide), by with_unfolding_all decide,
    by with_unfolding_all decide⟩
